import Mathlib

/-!
# ZooFile: path classification and content access over a ZooKeeper session

A shallow embedding of `src/ZooFile.cpp`.

* The process-wide globals (`for_sure_files`, `for_sure_directories`,
  `is_hybrid_mode`) and the state behind the ZooKeeper handle are threaded
  explicitly through every member function as a `World`.
* The ZooKeeper C client is an external library; it is a parameter
  (`ZooKeeper σ`) giving, for each API call used by the source, the values
  the call leaves in its out-parameters and the next state of the store.
* A C++ exception is the `throws` outcome; the self-call in `getContent` is
  bounded by a fuel argument, and `outOfFuel` stands for a run that has not
  finished within that many activations.
* `int` and `unsigned int` are 32 bits wide; conversions between them are
  the explicit functions `asUnsigned` and `asSigned`.
-/

namespace ZooFile

/-! ## Data model -/

/-- One `char` of a payload. -/
abbrev Byte := Fin 256

/-- Return code `ZOK` of the ZooKeeper C client (`zookeeper.h`). -/
def ZOK : Int := 0

/-- Return code `ZNONODE` of the ZooKeeper C client (`zookeeper.h`). -/
def ZNONODE : Int := -101

/-- Return code `ZBADARGUMENTS` of the ZooKeeper C client (`zookeeper.h`). -/
def ZBADARGUMENTS : Int := -8

/-- Return code `ZNODEEXISTS` of the ZooKeeper C client (`zookeeper.h`). -/
def ZNODEEXISTS : Int := -110

/-- Return code `ZNOTEMPTY` of the ZooKeeper C client (`zookeeper.h`). -/
def ZNOTEMPTY : Int := -111

/-- The constant `ZooFile::MAX_FILE_SIZE`. -/
def MAX_FILE_SIZE : Nat := 262144

/-- Value of a 32-bit `int` object read as `unsigned int`. -/
def asUnsigned (i : Int) : Nat := (i % 2 ^ 32).toNat

/-- Value of a `size_t` or `unsigned int` converted to a 32-bit `int`. -/
def asSigned (n : Nat) : Int :=
  if n % 2 ^ 32 < 2 ^ 31 then ((n % 2 ^ 32 : Nat) : Int) else ((n % 2 ^ 32 : Nat) : Int) - 2 ^ 32

/-- Modelled from the spec: `ZooFileException` is declared in `ZooFile.h`, which is not
among the sources; it carries the two constructor arguments the source passes, the
message and the store return code (the spec's `StoreError` with its `cause`). -/
structure ZooFileException where
  message : String
  rc : Int
deriving DecidableEq, Repr

/-- What a member function can throw: its own `ZooFileException`, or the
`std::bad_array_new_length` of a `new char[n]` with negative `n`. -/
inductive Exn where
  | zooFile (e : ZooFileException)
  | bad_array_new_length
deriving DecidableEq, Repr

/-- Outcome of running a member function from some world: it returns, it throws, it
reads past the end of an array (undefined behaviour), or it has not finished within the
fuel given. -/
inductive Result (ω α : Type) where
  | returns (value : α) (world : ω)
  | throws (e : Exn) (world : ω)
  | undefinedBehaviour
  | outOfFuel
deriving Repr

/-- Out-parameters of `zoo_get`: the return code, the bytes copied to the front of the
caller's buffer, and the value left in `*buffer_len`. -/
structure GetReply where
  rc : Int
  written : List Byte
  buffer_len : Int
deriving DecidableEq, Repr

/-- Out-parameters of `zoo_get_children`: the return code and the `String_vector`. -/
structure ChildrenReply where
  rc : Int
  children : List String
deriving DecidableEq, Repr

/-- The calls of the ZooKeeper C client that `ZooFile.cpp` makes on its handle, over a
store state `σ`. Arguments are those of the C call, in order, without the handle and
the out-parameters. -/
structure ZooKeeper (σ : Type) where
  /-- Call `zoo_get(handle, path, watch, buffer, &buffer_len, &stat)`, given `*buffer_len`. -/
  zoo_get : σ → String → Int → Nat → GetReply × σ
  /-- Call `zoo_get_children(handle, path, watch, &children)`. -/
  zoo_get_children : σ → String → Int → ChildrenReply × σ
  /-- Call `zoo_exists(handle, path, watch, NULL)`. -/
  zoo_exists : σ → String → Int → Int × σ
  /-- Call `zoo_set(handle, path, buffer, buflen, version)`. -/
  zoo_set : σ → String → List Byte → Int → Int → Int × σ
  /-- Call `zoo_create(handle, path, NULL, 0, &ZOO_OPEN_ACL_UNSAFE, 0, NULL, 0)`. -/
  zoo_create : σ → String → Int × σ
  /-- Call `zoo_delete(handle, path, version)`. -/
  zoo_delete : σ → String → Int → Int × σ

/-- State of the process: the store behind the handle, the three globals of
`ZooFile.cpp`, and the indeterminate contents of freshly allocated `char` arrays
(`heap i` is the byte found at offset `i`). -/
structure World (σ : Type) where
  store : σ
  for_sure_files : Finset String
  for_sure_directories : Finset String
  is_hybrid_mode : Bool
  heap : Nat → Byte

/-- Contents of a `new char[n]` array before anything is written to it. -/
def uninitialised (heap : Nat → Byte) : Nat → Nat → List Byte
  | _, 0 => []
  | i, n + 1 => heap i :: uninitialised heap (i + 1) n

/-- A buffer after the client has copied `written` to its front. The client is given
the buffer's size and never writes past it. -/
def copyInto : List Byte → List Byte → List Byte
  | [], _ => []
  | b :: buffer, [] => b :: buffer
  | _ :: buffer, x :: written => x :: copyInto buffer written

/-- The world with a new store state. -/
def World.withStore {σ : Type} (w : World σ) (s : σ) : World σ :=
  { w with store := s }

/-! ## Member functions of `ZooFile` -/

/-- Embeds `ZooFile::getContentAndSetWatch`. Its `contentLength` is an `int`; a reported
length above `MAX_FILE_SIZE` makes the `string` constructor read past the end of
`content`. -/
def getContentAndSetWatch {σ : Type} (zk : ZooKeeper σ) (path_ : String) (w : World σ) :
    Result (World σ) (List Byte) :=
  let content : List Byte := List.replicate MAX_FILE_SIZE 0
  let r := zk.zoo_get w.store path_ 1 MAX_FILE_SIZE
  let w1 := w.withStore r.2
  if r.1.rc ≠ ZOK then
    .throws (.zooFile ⟨"An error occurred getting the contents of file: " ++ path_, r.1.rc⟩) w1
  else
    let content := copyInto content r.1.written
    let contentLength : Int := asSigned (asUnsigned r.1.buffer_len)
    if contentLength > 0 then
      if contentLength.toNat > MAX_FILE_SIZE then .undefinedBehaviour
      else .returns (content.take contentLength.toNat) w1
    else .returns [] w1

/-- Embeds `ZooFile::markAsDirectory`. -/
def markAsDirectory {σ : Type} (path_ : String) (w : World σ) : World σ :=
  if path_ ∈ w.for_sure_files then w
  else { w with for_sure_directories := insert path_ w.for_sure_directories }

/-- Embeds `ZooFile::markAsFile`. -/
def markAsFile {σ : Type} (path_ : String) (w : World σ) : World σ :=
  if path_ ∈ w.for_sure_directories then w
  else { w with for_sure_files := insert path_ w.for_sure_files }

/-- Embeds `enableHybridMode`. -/
def enableHybridMode {σ : Type} (w : World σ) : World σ :=
  { w with is_hybrid_mode := true }

/-- Embeds `ZooFile::exists`. -/
def exists_ {σ : Type} (zk : ZooKeeper σ) (path_ : String) (w : World σ) :
    Result (World σ) Bool :=
  let r := zk.zoo_exists w.store path_ 0
  let rc := r.1
  let w1 := w.withStore r.2
  if rc = ZNONODE then .returns false w1
  else if rc ≠ ZOK then
    .throws (.zooFile ⟨"An error occurred checking the existence of file: " ++ path_, rc⟩) w1
  else .returns true w1

/-- Embeds `ZooFile::getChildren`; the loop pushes `children.data[i]` for each `i`. -/
def getChildren {σ : Type} (zk : ZooKeeper σ) (path_ : String) (w : World σ) :
    Result (World σ) (List String) :=
  let r := zk.zoo_get_children w.store path_ 0
  let rc := r.1.rc
  let w1 := w.withStore r.2
  if rc ≠ ZOK then
    .throws (.zooFile ⟨"An error occurred getting children of file: " ++ path_, rc⟩) w1
  else .returns (r.1.children.foldl (fun retval child => retval ++ [child]) []) w1

/-- Embeds `ZooFile::hasChildren`. -/
def hasChildren {σ : Type} (zk : ZooKeeper σ) (path_ : String) (w : World σ) :
    Result (World σ) Bool :=
  match getChildren zk path_ w with
  | .returns children w1 => .returns (decide (children.length > 0)) w1
  | .throws e w1 => .throws e w1
  | .undefinedBehaviour => .undefinedBehaviour
  | .outOfFuel => .outOfFuel

/-- Embeds `ZooFile::getContent`. The fuel bounds the depth of the self-call made when
the payload changed size between the two reads. -/
def getContent {σ : Type} (zk : ZooKeeper σ) (path_ : String) :
    Nat → World σ → Result (World σ) (List Byte)
  | 0, _ => .outOfFuel
  | fuel + 1, w =>
    let content : List Byte := List.replicate MAX_FILE_SIZE 0
    let r1 := zk.zoo_get w.store path_ 0 MAX_FILE_SIZE
    let w1 := w.withStore r1.2
    if r1.1.rc ≠ ZOK then
      .throws (.zooFile ⟨"An error occurred getting the contents of file: " ++ path_, r1.1.rc⟩) w1
    else
      let content := copyInto content r1.1.written
      let contentLength : Nat := asUnsigned r1.1.buffer_len
      if contentLength > MAX_FILE_SIZE then
        let previousLength : Int := asSigned contentLength
        if previousLength < 0 then .throws .bad_array_new_length w1
        else
          let file_contents := uninitialised w.heap 0 previousLength.toNat
          let r2 := zk.zoo_get w1.store path_ 0 previousLength.toNat
          let w2 := w1.withStore r2.2
          if r2.1.rc ≠ ZOK then
            .throws
              (.zooFile ⟨"An error occurred getting the contents of file: " ++ path_, r2.1.rc⟩) w2
          else
            let file_contents := copyInto file_contents r2.1.written
            let contentLength : Nat := asUnsigned r2.1.buffer_len
            if asUnsigned previousLength ≠ contentLength then getContent zk path_ fuel w2
            else .returns (file_contents.take contentLength) w2
      else if contentLength > 0 then .returns (content.take contentLength) w1
      else .returns [] w1

/-- Embeds `ZooFile::setContent`. -/
def setContent {σ : Type} (zk : ZooKeeper σ) (path_ : String) (content : List Byte)
    (w : World σ) : Result (World σ) Unit :=
  let r := zk.zoo_set w.store path_ content (asSigned content.length) (-1)
  let w1 := w.withStore r.2
  if r.1 ≠ ZOK then
    .throws (.zooFile ⟨"An error occurred setting the contents of file: " ++ path_, r.1⟩) w1
  else .returns () w1

/-- Embeds `ZooFile::create`. -/
def create {σ : Type} (zk : ZooKeeper σ) (path_ : String) (w : World σ) :
    Result (World σ) Unit :=
  let r := zk.zoo_create w.store path_
  let w1 := w.withStore r.2
  if r.1 ≠ ZOK then
    .throws (.zooFile ⟨"An error occurred creating the file: " ++ path_, r.1⟩) w1
  else .returns () w1

/-- Embeds `ZooFile::getLength`. -/
def getLength {σ : Type} (zk : ZooKeeper σ) (path_ : String) (fuel : Nat) (w : World σ) :
    Result (World σ) Nat :=
  match getContent zk path_ fuel w with
  | .returns content w1 => .returns content.length w1
  | .throws e w1 => .throws e w1
  | .undefinedBehaviour => .undefinedBehaviour
  | .outOfFuel => .outOfFuel

/-- Embeds `ZooFile::isDir`. The fuel is handed to `getLength`. -/
def isDir {σ : Type} (zk : ZooKeeper σ) (path_ : String) (fuel : Nat) (w : World σ) :
    Result (World σ) Bool :=
  if !w.is_hybrid_mode then
    match getChildren zk path_ w with
    | .returns children w1 => .returns (!children.isEmpty) w1
    | .throws e w1 => .throws e w1
    | .undefinedBehaviour => .undefinedBehaviour
    | .outOfFuel => .outOfFuel
  else if path_ = "/" then .returns true w
  else if path_ ∉ w.for_sure_files then
    if path_ ∉ w.for_sure_directories then
      match getChildren zk path_ w with
      | .returns children w1 =>
        if children.isEmpty then
          match getLength zk path_ fuel w1 with
          | .returns length w2 => .returns (decide (length = 0)) w2
          | .throws e w2 => .throws e w2
          | .undefinedBehaviour => .undefinedBehaviour
          | .outOfFuel => .outOfFuel
        else .returns true w1
      | .throws e w1 => .throws e w1
      | .undefinedBehaviour => .undefinedBehaviour
      | .outOfFuel => .outOfFuel
    else .returns true w
  else .returns false w

/-- Embeds `ZooFile::remove`. -/
def remove {σ : Type} (zk : ZooKeeper σ) (path_ : String) (w : World σ) :
    Result (World σ) Unit :=
  let r := zk.zoo_delete w.store path_ (-1)
  let w1 := w.withStore r.2
  if r.1 ≠ ZOK then
    .throws (.zooFile ⟨"An error occurred deleting the file: " ++ path_, r.1⟩) w1
  else
    .returns ()
      { w1 with
        for_sure_files := w1.for_sure_files.erase path_
        for_sure_directories := w1.for_sure_directories.erase path_ }

/-! ## Stores

The source is written against the client's interface only. Four clients are used
below: an in-memory ensemble, a test double that replays a script of payloads, a
session on which every call fails, and a wrapper that counts the calls made on another
store. -/

/-- Modelled from the spec: the Store Session is an external collaborator (sections 2
and 6); this is an in-memory ensemble, a list of nodes, each a path with its payload. -/
abbrev MemStore := List (String × List Byte)

namespace MemStore

/-- The payload at a path, if the node is present. -/
def payload : MemStore → String → Option (List Byte)
  | [], _ => none
  | (q, d) :: rest, p => if q = p then some d else payload rest p

/-- The store with the payload at a path replaced. -/
def replace : MemStore → String → List Byte → MemStore
  | [], _, _ => []
  | (q, d) :: rest, p, b => if q = p then (q, b) :: replace rest p b else (q, d) :: replace rest p b

/-- The store without the node at a path. -/
def erase : MemStore → String → MemStore
  | [], _ => []
  | (q, d) :: rest, p => if q = p then erase rest p else (q, d) :: erase rest p

/-- The name under which `child` is a child of `parent`, if it is one. -/
def childName (parent child : String) : Option String :=
  let pre := if parent = "/" then ['/'] else parent.data ++ ['/']
  if pre.isPrefixOf child.data then
    let name := child.data.drop pre.length
    if name ≠ [] ∧ '/' ∉ name then some (String.mk name) else none
  else none

/-- Names of the children of a path. -/
def childrenOf (s : MemStore) (p : String) : List String :=
  s.filterMap (fun n => childName p n.1)

/-- Whether some node of the store is the parent of a path. -/
def hasParent (s : MemStore) (p : String) : Bool :=
  s.any (fun n => (childName n.1 p).isSome)

/-- Modelled from the spec: the read contract `getContent` is written against
(section 4.3, step 2): a read for `N` bytes copies the first `min N length` bytes and
reports the true total length. -/
def zoo_get (s : MemStore) (p : String) (_watch : Int) (N : Nat) : GetReply × MemStore :=
  match payload s p with
  | none => (⟨ZNONODE, [], N⟩, s)
  | some d => (⟨ZOK, d.take N, d.length⟩, s)

/-- Modelled from the spec: `listChildren(path)`. -/
def zoo_get_children (s : MemStore) (p : String) (_watch : Int) : ChildrenReply × MemStore :=
  match payload s p with
  | none => (⟨ZNONODE, []⟩, s)
  | some _ => (⟨ZOK, childrenOf s p⟩, s)

/-- Modelled from the spec: `exists(path)`. -/
def zoo_exists (s : MemStore) (p : String) (_watch : Int) : Int × MemStore :=
  match payload s p with
  | none => (ZNONODE, s)
  | some _ => (ZOK, s)

/-- Modelled from the spec: `set(path, bytes, expectedVersion)`; the payload becomes
the first `buflen` bytes of the buffer. A length that is negative or exceeds the
buffer is rejected; versions are not kept, every expected version matches. -/
def zoo_set (s : MemStore) (p : String) (buffer : List Byte) (buflen _version : Int) :
    Int × MemStore :=
  if buflen < 0 ∨ (buffer.length : Int) < buflen then (ZBADARGUMENTS, s)
  else
    match payload s p with
    | none => (ZNONODE, s)
    | some _ => (ZOK, replace s p (buffer.take buflen.toNat))

/-- Modelled from the spec: `create(path)`, with empty content; fails if the node
exists or its parent is missing. -/
def zoo_create (s : MemStore) (p : String) : Int × MemStore :=
  match payload s p with
  | some _ => (ZNODEEXISTS, s)
  | none => if p = "/" ∨ hasParent s p then (ZOK, s ++ [(p, [])]) else (ZNONODE, s)

/-- Modelled from the spec: `delete(path, expectedVersion)`; fails if the node is
absent or has children. -/
def zoo_delete (s : MemStore) (p : String) (_version : Int) : Int × MemStore :=
  match payload s p with
  | none => (ZNONODE, s)
  | some _ =>
    if childrenOf s p ≠ [] then (ZNOTEMPTY, s) else (ZOK, erase s p)

end MemStore

/-- The client over the in-memory ensemble. -/
def memZk : ZooKeeper MemStore where
  zoo_get := MemStore.zoo_get
  zoo_get_children := MemStore.zoo_get_children
  zoo_exists := MemStore.zoo_exists
  zoo_set := MemStore.zoo_set
  zoo_create := MemStore.zoo_create
  zoo_delete := MemStore.zoo_delete

/-- A store double for reads: the store state is the number of reads answered so far,
and read number `n` sees the payload `script n`, of which it copies the first
`min N length` bytes, reporting the true total length. Other calls fail. -/
def scriptedZk (script : Nat → List Byte) : ZooKeeper Nat where
  zoo_get := fun n _ _ N => (⟨ZOK, (script n).take N, (script n).length⟩, n + 1)
  zoo_get_children := fun n _ _ => (⟨ZNONODE, []⟩, n)
  zoo_exists := fun n _ _ => (ZNONODE, n)
  zoo_set := fun n _ _ _ _ => (ZNONODE, n)
  zoo_create := fun n _ => (ZNONODE, n)
  zoo_delete := fun n _ _ => (ZNONODE, n)

/-- A session on which every call fails with the same return code, such as
`ZCONNECTIONLOSS` (-4) after the connection is lost. -/
def failingZk (rc : Int) : ZooKeeper Unit where
  zoo_get := fun _ _ _ N => (⟨rc, [], N⟩, ())
  zoo_get_children := fun _ _ _ => (⟨rc, []⟩, ())
  zoo_exists := fun _ _ _ => (rc, ())
  zoo_set := fun _ _ _ _ _ => (rc, ())
  zoo_create := fun _ _ => (rc, ())
  zoo_delete := fun _ _ _ => (rc, ())

/-- A store together with the number of client calls made on it so far. -/
def counting {σ : Type} (zk : ZooKeeper σ) : ZooKeeper (σ × Nat) where
  zoo_get := fun s p w N => ((zk.zoo_get s.1 p w N).1, ((zk.zoo_get s.1 p w N).2, s.2 + 1))
  zoo_get_children := fun s p w =>
    ((zk.zoo_get_children s.1 p w).1, ((zk.zoo_get_children s.1 p w).2, s.2 + 1))
  zoo_exists := fun s p w => ((zk.zoo_exists s.1 p w).1, ((zk.zoo_exists s.1 p w).2, s.2 + 1))
  zoo_set := fun s p b n v =>
    ((zk.zoo_set s.1 p b n v).1, ((zk.zoo_set s.1 p b n v).2, s.2 + 1))
  zoo_create := fun s p => ((zk.zoo_create s.1 p).1, ((zk.zoo_create s.1 p).2, s.2 + 1))
  zoo_delete := fun s p v => ((zk.zoo_delete s.1 p v).1, ((zk.zoo_delete s.1 p v).2, s.2 + 1))

/-- The world at process start over a given store: empty cache, hybrid mode off. -/
def initialWorld {σ : Type} (s : σ) : World σ :=
  { store := s, for_sure_files := ∅, for_sure_directories := ∅, is_hybrid_mode := false,
    heap := fun _ => 0 }

/-! ## Sequences of cache calls -/

/-- A call that may change the classification cache. -/
inductive CacheCall where
  | markAsFile (path : String)
  | markAsDirectory (path : String)
  | remove (path : String)
deriving DecidableEq, Repr

/-- The world in which the caller goes on after a call, whether it returned or threw;
`w` is the world before the call. -/
def Result.worldAfter {ω α : Type} (w : ω) : Result ω α → ω
  | .returns _ w1 => w1
  | .throws _ w1 => w1
  | .undefinedBehaviour => w
  | .outOfFuel => w

/-- One cache call; a failing `remove` is caught by the caller. -/
def runCall {σ : Type} (zk : ZooKeeper σ) (w : World σ) : CacheCall → World σ
  | .markAsFile p => markAsFile p w
  | .markAsDirectory p => markAsDirectory p w
  | .remove p => (remove zk p w).worldAfter w

/-- A finite sequence of cache calls, in order. -/
def runCalls {σ : Type} (zk : ZooKeeper σ) (calls : List CacheCall) (w : World σ) : World σ :=
  calls.foldl (runCall zk) w

/-- Worlds used as concrete inputs: the ensemble of the spec's scenarios. -/
def scenarioStore : MemStore := [("/", []), ("/a", []), ("/b", []), ("/b/c", [1, 2, 3])]

/-- The scenario store behind a call counter at zero, in hybrid mode, with `/a` recorded
as a file and `/b` as a directory. -/
def countedWorld : World (MemStore × Nat) :=
  markAsDirectory "/b" (markAsFile "/" (markAsFile "/a"
    (enableHybridMode (initialWorld (scenarioStore, 0)))))

/-- The scenario of the spec: hybrid mode on, `markAsDirectory("/b")`, then
`setContent("/b", "data")`. -/
def scenarioB : World MemStore :=
  (setContent memZk "/b" [100, 97, 116, 97]
    (markAsDirectory "/b" (enableHybridMode (initialWorld scenarioStore)))).worldAfter
    (initialWorld scenarioStore)

/-! ## Contracts of a store -/

/-- The store state `s` holds the payload `b` at `p`: a read for `N` bytes succeeds,
copies the first `min N length` bytes and reports the true total length, and leaves the
store as it was (no other actor changes it in between). -/
def Holds {σ : Type} (zk : ZooKeeper σ) (s : σ) (p : String) (b : List Byte) : Prop :=
  ∀ watch N, zk.zoo_get s p watch N = (⟨ZOK, b.take N, b.length⟩, s)

/-- Contract of a store for writes: after a successful `zoo_set` of a whole buffer the
store holds that buffer at the path. -/
def ReadsBackWrites {σ : Type} (zk : ZooKeeper σ) : Prop :=
  ∀ s p b v, (zk.zoo_set s p b b.length v).1 = ZOK →
    Holds zk (zk.zoo_set s p b b.length v).2 p b

/-- Contract of a store for deletion: after a successful `zoo_delete` the store answers
`ZNONODE` when asked whether the node exists. -/
def AbsentAfterDelete {σ : Type} (zk : ZooKeeper σ) : Prop :=
  ∀ s p v, (zk.zoo_delete s p v).1 = ZOK →
    ∀ watch, (zk.zoo_exists (zk.zoo_delete s p v).2 p watch).1 = ZNONODE

/-- A payload of 2147483648 bytes, the least length no `int` can hold. -/
def twoGiB : List Byte := List.replicate (2 ^ 31) 0

/-- A payload one byte above `MAX_FILE_SIZE`. -/
def oversized : List Byte := List.replicate (MAX_FILE_SIZE + 1) 0

/-- A script of oversized payloads that grows by one byte at each of the first two reads
and is stable from the third on. -/
def growingScript (i : Nat) : List Byte := List.replicate (MAX_FILE_SIZE + 1 + min i 2) 7

/-- A script whose payload grows once, from one byte above `MAX_FILE_SIZE` to
2147483648 bytes, and is stable from then on. -/
def hugeScript (i : Nat) : List Byte := if i = 0 then oversized else twoGiB

/-! ## Sequences of Node Handle calls -/

/-- A call on the Node Handle API, with its path and, for a write, the content. -/
inductive HandleCall where
  | markAsFile (path : String)
  | markAsDirectory (path : String)
  | enableHybridMode
  | exists_ (path : String)
  | isDir (path : String)
  | getChildren (path : String)
  | hasChildren (path : String)
  | getContent (path : String)
  | getContentAndSetWatch (path : String)
  | getLength (path : String)
  | setContent (path : String) (content : List Byte)
  | create (path : String)
  | remove (path : String)
deriving DecidableEq, Repr

/-- The world in which the caller goes on after a call that returned or threw; there
is none after undefined behaviour or when the call has not finished. -/
def Result.continues {ω α : Type} : Result ω α → Option ω
  | .returns _ w1 => some w1
  | .throws _ w1 => some w1
  | .undefinedBehaviour => none
  | .outOfFuel => none

/-- The value returned or the exception thrown, without the world. -/
def Result.forget {ω α : Type} : Result ω α → Result Unit α
  | .returns a _ => .returns a ()
  | .throws e _ => .throws e ()
  | .undefinedBehaviour => .undefinedBehaviour
  | .outOfFuel => .outOfFuel

/-- One Node Handle call; an exception is caught by the caller. -/
def runHandleCall {σ : Type} (zk : ZooKeeper σ) (fuel : Nat) (w : World σ) :
    HandleCall → Option (World σ)
  | .markAsFile p => some (markAsFile p w)
  | .markAsDirectory p => some (markAsDirectory p w)
  | .enableHybridMode => some (enableHybridMode w)
  | .exists_ p => (exists_ zk p w).continues
  | .isDir p => (isDir zk p fuel w).continues
  | .getChildren p => (getChildren zk p w).continues
  | .hasChildren p => (hasChildren zk p w).continues
  | .getContent p => (getContent zk p fuel w).continues
  | .getContentAndSetWatch p => (getContentAndSetWatch zk p w).continues
  | .getLength p => (getLength zk p fuel w).continues
  | .setContent p content => (setContent zk p content w).continues
  | .create p => (create zk p w).continues
  | .remove p => (remove zk p w).continues

/-- A finite sequence of Node Handle calls, in order, as far as every call finishes. -/
def runHandleCalls {σ : Type} (zk : ZooKeeper σ) (fuel : Nat) :
    List HandleCall → World σ → Option (World σ)
  | [], w => some w
  | c :: cs, w =>
    match runHandleCall zk fuel w c with
    | some w1 => runHandleCalls zk fuel cs w1
    | none => none

/-- No call of the sequence is a `remove` of `p` whose `zoo_delete` succeeds. -/
def NoSuccessfulRemove {σ : Type} (zk : ZooKeeper σ) (fuel : Nat) (p : String) :
    List HandleCall → World σ → Prop
  | [], _ => True
  | c :: cs, w =>
    ¬ (c = .remove p ∧ (zk.zoo_delete w.store p (-1)).1 = ZOK) ∧
    match runHandleCall zk fuel w c with
    | some w1 => NoSuccessfulRemove zk fuel p cs w1
    | none => True

/-- The classification cache and the mode flag of `w1` are those of `w`. -/
def SameCache {σ : Type} (w w1 : World σ) : Prop :=
  w1.for_sure_files = w.for_sure_files ∧
  w1.for_sure_directories = w.for_sure_directories ∧
  w1.is_hybrid_mode = w.is_hybrid_mode

/-! ## The two reads of `getContent` -/

/-- The reply to the bounded read that starts an activation of `getContent`, and the
store after it. -/
def firstRead {σ : Type} (zk : ZooKeeper σ) (p : String) (w : World σ) : GetReply × σ :=
  zk.zoo_get w.store p 0 MAX_FILE_SIZE

/-- The reply to the full-size read of `getContent`, made after the bounded read with a
buffer of `previousLength` bytes, and the store after it. -/
def secondRead {σ : Type} (zk : ZooKeeper σ) (p : String) (w : World σ) : GetReply × σ :=
  zk.zoo_get (firstRead zk p w).2 p 0
    (asSigned (asUnsigned (firstRead zk p w).1.buffer_len)).toNat

/-- The condition under which an activation of `getContent` ends in the self-call: both
reads succeed, the first reports more than `MAX_FILE_SIZE`, the array is allocated, and
the second reports another length. -/
def Restarts {σ : Type} (zk : ZooKeeper σ) (p : String) (w : World σ) : Prop :=
  (firstRead zk p w).1.rc = ZOK ∧
  asUnsigned (firstRead zk p w).1.buffer_len > MAX_FILE_SIZE ∧
  ¬ asSigned (asUnsigned (firstRead zk p w).1.buffer_len) < 0 ∧
  (secondRead zk p w).1.rc = ZOK ∧
  asUnsigned (asSigned (asUnsigned (firstRead zk p w).1.buffer_len)) ≠
    asUnsigned (secondRead zk p w).1.buffer_len

/-- A store double for reads like `scriptedZk`, on which every read from number `k` on
fails with the return code `rc`. -/
def failingAfter (k : Nat) (rc : Int) (script : Nat → List Byte) : ZooKeeper Nat where
  zoo_get := fun n _ _ N =>
    if n < k then (⟨ZOK, (script n).take N, (script n).length⟩, n + 1) else (⟨rc, [], N⟩, n + 1)
  zoo_get_children := fun n _ _ => (⟨ZNONODE, []⟩, n)
  zoo_exists := fun n _ _ => (ZNONODE, n)
  zoo_set := fun n _ _ _ _ => (ZNONODE, n)
  zoo_create := fun n _ => (ZNONODE, n)
  zoo_delete := fun n _ _ => (ZNONODE, n)

/-- The scenario store in hybrid mode, nothing classified. -/
def hybridWorld : World MemStore := enableHybridMode (initialWorld scenarioStore)

/-! ## Basic facts -/

theorem ZOK_ne_ZNONODE : ZOK ≠ ZNONODE := by decide

theorem pushBack_loop (acc l : List String) :
    l.foldl (fun retval child => retval ++ [child]) acc = acc ++ l := by
  induction l generalizing acc with
  | nil => simp
  | cons a l ih => simp [ih]

theorem getChildren_ok {σ : Type} (zk : ZooKeeper σ) (p : String) (w : World σ)
    (kids : List String) (s1 : σ) (h : zk.zoo_get_children w.store p 0 = (⟨ZOK, kids⟩, s1)) :
    getChildren zk p w = .returns kids (w.withStore s1) := by
  simp [getChildren, h, pushBack_loop]

theorem getChildren_error {σ : Type} (zk : ZooKeeper σ) (p : String) (w : World σ)
    (h : (zk.zoo_get_children w.store p 0).1.rc ≠ ZOK) :
    getChildren zk p w =
      .throws (.zooFile ⟨"An error occurred getting children of file: " ++ p,
        (zk.zoo_get_children w.store p 0).1.rc⟩)
        (w.withStore (zk.zoo_get_children w.store p 0).2) := by
  simp [getChildren, h]

theorem markAsFile_files {σ : Type} (p q : String) (w : World σ) :
    q ∈ (markAsFile p w).for_sure_files ↔
      q ∈ w.for_sure_files ∨ (q = p ∧ p ∉ w.for_sure_directories) := by
  unfold markAsFile
  by_cases h : p ∈ w.for_sure_directories <;> simp [h, or_comm]

theorem markAsFile_directories {σ : Type} (p : String) (w : World σ) :
    (markAsFile p w).for_sure_directories = w.for_sure_directories := by
  unfold markAsFile
  by_cases h : p ∈ w.for_sure_directories <;> simp [h]

theorem markAsDirectory_directories {σ : Type} (p q : String) (w : World σ) :
    q ∈ (markAsDirectory p w).for_sure_directories ↔
      q ∈ w.for_sure_directories ∨ (q = p ∧ p ∉ w.for_sure_files) := by
  unfold markAsDirectory
  by_cases h : p ∈ w.for_sure_files <;> simp [h, or_comm]

theorem markAsDirectory_files {σ : Type} (p : String) (w : World σ) :
    (markAsDirectory p w).for_sure_files = w.for_sure_files := by
  unfold markAsDirectory
  by_cases h : p ∈ w.for_sure_files <;> simp [h]

theorem remove_files_subset {σ : Type} (zk : ZooKeeper σ) (p q : String) (w : World σ)
    (h : q ∈ ((remove zk p w).worldAfter w).for_sure_files) : q ∈ w.for_sure_files := by
  unfold remove at h
  by_cases hrc : (zk.zoo_delete w.store p (-1)).1 = ZOK
  · simp [hrc, Result.worldAfter, World.withStore] at h
    exact h.2
  · simpa [hrc, Result.worldAfter, World.withStore] using h

theorem remove_directories_subset {σ : Type} (zk : ZooKeeper σ) (p q : String) (w : World σ)
    (h : q ∈ ((remove zk p w).worldAfter w).for_sure_directories) :
    q ∈ w.for_sure_directories := by
  unfold remove at h
  by_cases hrc : (zk.zoo_delete w.store p (-1)).1 = ZOK
  · simp [hrc, Result.worldAfter, World.withStore] at h
    exact h.2
  · simpa [hrc, Result.worldAfter, World.withStore] using h

/-- One cache call keeps the two sets disjoint. -/
theorem runCall_exclusive {σ : Type} (zk : ZooKeeper σ) (w : World σ) (c : CacheCall)
    (h : ∀ q, ¬ (q ∈ w.for_sure_files ∧ q ∈ w.for_sure_directories)) :
    ∀ q, ¬ (q ∈ (runCall zk w c).for_sure_files ∧ q ∈ (runCall zk w c).for_sure_directories) := by
  intro q
  cases c with
  | markAsFile p =>
    simp only [runCall, markAsFile_files, markAsFile_directories]
    rintro ⟨hf | ⟨rfl, hp⟩, hd⟩
    · exact h q ⟨hf, hd⟩
    · exact hp hd
  | markAsDirectory p =>
    simp only [runCall, markAsDirectory_directories, markAsDirectory_files]
    rintro ⟨hf, hd | ⟨rfl, hp⟩⟩
    · exact h q ⟨hf, hd⟩
    · exact hp hf
  | remove p =>
    simp only [runCall]
    rintro ⟨hf, hd⟩
    exact h q ⟨remove_files_subset zk p q w hf, remove_directories_subset zk p q w hd⟩

theorem runCalls_exclusive {σ : Type} (zk : ZooKeeper σ) (calls : List CacheCall) (w : World σ)
    (h : ∀ q, ¬ (q ∈ w.for_sure_files ∧ q ∈ w.for_sure_directories)) :
    ∀ q, ¬ (q ∈ (runCalls zk calls w).for_sure_files ∧
      q ∈ (runCalls zk calls w).for_sure_directories) := by
  induction calls generalizing w with
  | nil => simpa [runCalls] using h
  | cons c calls ih =>
    have := ih (runCall zk w c) (runCall_exclusive zk w c h)
    simpa [runCalls] using this

/-! ## Buffers and integer conversions -/

theorem asUnsigned_natCast (n : Nat) : asUnsigned (n : Int) = n % 2 ^ 32 := by
  unfold asUnsigned
  omega

theorem asSigned_of_lt (n : Nat) (h : n < 2 ^ 31) : asSigned n = (n : Int) := by
  unfold asSigned
  split <;> omega

theorem asSigned_neg (n : Nat) (h1 : 2 ^ 31 ≤ n) (h2 : n < 2 ^ 32) : asSigned n < 0 := by
  unfold asSigned
  split <;> omega

theorem length_uninitialised (heap : Nat → Byte) (i n : Nat) :
    (uninitialised heap i n).length = n := by
  induction n generalizing i with
  | zero => simp [uninitialised]
  | succ n ih => simp [uninitialised, ih]

/-- Reading back at most as many bytes as were written, from a buffer that is large
enough, gives the bytes written. -/
theorem take_copyInto (buffer written : List Byte) (n : Nat)
    (hw : n ≤ written.length) (hb : n ≤ buffer.length) :
    (copyInto buffer written).take n = written.take n := by
  induction buffer generalizing written n with
  | nil =>
    have : n = 0 := by simpa using hb
    subst this
    simp
  | cons x buffer ih =>
    cases written with
    | nil =>
      have : n = 0 := by simpa using hw
      subst this
      simp
    | cons y written =>
      cases n with
      | zero => simp
      | succ n =>
        simp only [copyInto, List.take_succ_cons, List.cons.injEq, true_and]
        exact ih written n (by simpa using hw) (by simpa using hb)

/-! ## Classification cache -/

/-- Claim C3 (cache exclusivity): from a world whose two sets are both empty, after any
finite sequence of `markAsFile`, `markAsDirectory` and `remove` calls on arbitrary
paths, over any store (so `remove` may succeed or fail), no path is in both
`for_sure_files` and `for_sure_directories`. -/
theorem cache_exclusive {σ : Type} (zk : ZooKeeper σ) (s : σ) (hybrid : Bool)
    (heap : Nat → Byte) (calls : List CacheCall) (p : String) :
    ¬ (p ∈ (runCalls zk calls ⟨s, ∅, ∅, hybrid, heap⟩).for_sure_files ∧
       p ∈ (runCalls zk calls ⟨s, ∅, ∅, hybrid, heap⟩).for_sure_directories) :=
  runCalls_exclusive zk calls ⟨s, ∅, ∅, hybrid, heap⟩ (by simp) p

/-- Claim C4 (first write wins): when `p` is not yet recorded as a directory,
`markAsFile(p)` followed by `markAsDirectory(p)` leaves `p` in `for_sure_files` and not
in `for_sure_directories`; when `p` is not yet recorded as a file, `markAsDirectory(p)`
followed by `markAsFile(p)` leaves `p` in `for_sure_directories` and not in
`for_sure_files`. -/
theorem first_write_wins {σ : Type} (p : String) (w : World σ) :
    (p ∉ w.for_sure_directories →
      p ∈ (markAsDirectory p (markAsFile p w)).for_sure_files ∧
      p ∉ (markAsDirectory p (markAsFile p w)).for_sure_directories) ∧
    (p ∉ w.for_sure_files →
      p ∈ (markAsFile p (markAsDirectory p w)).for_sure_directories ∧
      p ∉ (markAsFile p (markAsDirectory p w)).for_sure_files) := by
  constructor
  · intro h
    simp [markAsDirectory_files, markAsDirectory_directories, markAsFile_files,
      markAsFile_directories, h]
  · intro h
    simp [markAsDirectory_files, markAsDirectory_directories, markAsFile_files,
      markAsFile_directories, h]

/-- Witness of C4 at the path `/a` in the world at process start. -/
theorem first_write_wins_witness :
    ("/a" ∈ (markAsDirectory "/a" (markAsFile "/a" (initialWorld scenarioStore))).for_sure_files ∧
      "/a" ∉ (markAsDirectory "/a"
        (markAsFile "/a" (initialWorld scenarioStore))).for_sure_directories) ∧
    ("/a" ∈ (markAsFile "/a"
        (markAsDirectory "/a" (initialWorld scenarioStore))).for_sure_directories ∧
      "/a" ∉ (markAsFile "/a" (markAsDirectory "/a" (initialWorld scenarioStore))).for_sure_files) :=
  ⟨(first_write_wins "/a" (initialWorld scenarioStore)).1 (by decide),
   (first_write_wins "/a" (initialWorld scenarioStore)).2 (by decide)⟩

/-! ## Classification decision -/

/-- Claim C1 (hybrid mode, unclassified path): for a path other than `/` that is in
neither cache set, when listing the children succeeds with `kids` and reading the
content succeeds with `content`, `isDir` returns, and it returns true exactly when
there is at least one child or the content length is zero. The content is read only
for a childless node. -/
theorem isDir_unclassified {σ : Type} (zk : ZooKeeper σ) (p : String) (fuel : Nat)
    (w : World σ) (kids : List String) (s1 : σ) (content : List Byte) (w2 : World σ)
    (hmode : w.is_hybrid_mode = true) (hroot : p ≠ "/")
    (hfile : p ∉ w.for_sure_files) (hdir : p ∉ w.for_sure_directories)
    (hkids : zk.zoo_get_children w.store p 0 = (⟨ZOK, kids⟩, s1))
    (hget : getContent zk p fuel (w.withStore s1) = .returns content w2) :
    isDir zk p fuel w =
      .returns (decide (0 < kids.length ∨ content.length = 0))
        (if kids = [] then w2 else w.withStore s1) := by
  have hk := getChildren_ok zk p w kids s1 hkids
  cases kids with
  | nil => simp [isDir, hmode, hroot, hfile, hdir, hk, getLength, hget]
  | cons k ks => simp [isDir, hmode, hroot, hfile, hdir, hk]

/-- Witness of C1: in the scenario store, `/a` is childless and empty, hence a
directory; `/b/c` is childless and holds three bytes, hence a file. -/
theorem isDir_unclassified_witness :
    isDir memZk "/a" 1 (enableHybridMode (initialWorld scenarioStore)) =
      .returns true (enableHybridMode (initialWorld scenarioStore)) ∧
    isDir memZk "/b/c" 1 (enableHybridMode (initialWorld scenarioStore)) =
      .returns false (enableHybridMode (initialWorld scenarioStore)) :=
  ⟨isDir_unclassified memZk "/a" 1 (enableHybridMode (initialWorld scenarioStore)) []
      scenarioStore [] (enableHybridMode (initialWorld scenarioStore))
      rfl (by decide) (by decide) (by decide) rfl rfl,
   isDir_unclassified memZk "/b/c" 1 (enableHybridMode (initialWorld scenarioStore)) []
      scenarioStore [1, 2, 3] (enableHybridMode (initialWorld scenarioStore))
      rfl (by decide) (by decide) (by decide) rfl rfl⟩

/-- Claim C2 (hybrid mode, classified path): for a path other than `/`, if it is in
`for_sure_files` then `isDir` returns false, and otherwise if it is in
`for_sure_directories` then `isDir` returns true; for every store and store state the
world is handed back as it was (also over a store that counts its calls, so no call is
made), with any fuel, and no exception is thrown. -/
theorem isDir_cached {σ : Type} (zk : ZooKeeper σ) (p : String) (fuel : Nat) (w : World σ)
    (hmode : w.is_hybrid_mode = true) (hroot : p ≠ "/") :
    (p ∈ w.for_sure_files → isDir zk p fuel w = .returns false w) ∧
    (p ∉ w.for_sure_files → p ∈ w.for_sure_directories →
      isDir zk p fuel w = .returns true w) := by
  constructor
  · intro hf
    simp [isDir, hmode, hroot, hf]
  · intro hf hd
    simp [isDir, hmode, hroot, hf, hd]

/-- Witness of C2: the spec's scenario, where `/b` was marked as a directory and then
given the content `data`, and `isDir` answers true without fuel; and over the counting
store, where `/a` is a file and `/b` a directory and the call counter stays at zero. -/
theorem isDir_cached_witness :
    isDir memZk "/b" 0 scenarioB = .returns true scenarioB ∧
    isDir (counting memZk) "/a" 0 countedWorld = .returns false countedWorld ∧
    isDir (counting memZk) "/b" 0 countedWorld = .returns true countedWorld :=
  ⟨(isDir_cached memZk "/b" 0 scenarioB rfl (by decide)).2 (by decide) (by decide),
   (isDir_cached (counting memZk) "/a" 0 countedWorld rfl (by decide)).1 (by decide),
   (isDir_cached (counting memZk) "/b" 0 countedWorld rfl (by decide)).2 (by decide)
     (by decide)⟩

/-- Claim C8 (simple mode): with hybrid mode off, for every path, cache and store state,
`isDir` has the outcome of `hasChildren`: the same boolean in the same world, or the
same exception; so a node whose child list is empty is a file, whatever the cache
holds. -/
theorem isDir_simple_mode {σ : Type} (zk : ZooKeeper σ) (p : String) (fuel : Nat)
    (w : World σ) (hmode : w.is_hybrid_mode = false) :
    isDir zk p fuel w = hasChildren zk p w ∧
    (∀ s1, zk.zoo_get_children w.store p 0 = (⟨ZOK, []⟩, s1) →
      isDir zk p fuel w = .returns false (w.withStore s1)) := by
  have key : isDir zk p fuel w = hasChildren zk p w := by
    simp only [isDir, hasChildren, hmode]
    cases getChildren zk p w with
    | returns children w1 => cases children <;> simp
    | throws e w1 => simp
    | undefinedBehaviour => simp
    | outOfFuel => simp
  refine ⟨key, ?_⟩
  intro s1 h
  rw [key]
  simp [hasChildren, getChildren_ok zk p w [] s1 h]

/-- Witness of C8: in simple mode the childless `/a` is a file although it is recorded
as a directory. -/
theorem isDir_simple_mode_witness :
    isDir memZk "/a" 0 (markAsDirectory "/a" (initialWorld scenarioStore)) =
      hasChildren memZk "/a" (markAsDirectory "/a" (initialWorld scenarioStore)) ∧
    isDir memZk "/a" 0 (markAsDirectory "/a" (initialWorld scenarioStore)) =
      .returns false (markAsDirectory "/a" (initialWorld scenarioStore)) :=
  ⟨(isDir_simple_mode memZk "/a" 0 (markAsDirectory "/a" (initialWorld scenarioStore)) rfl).1,
   (isDir_simple_mode memZk "/a" 0 (markAsDirectory "/a" (initialWorld scenarioStore)) rfl).2
      scenarioStore rfl⟩

/-- Claim C9 (root): in hybrid mode `isDir("/")` returns true for every cache and every
store state; the world is handed back as it was for every store (also one that counts
its calls, so no call is made), with any fuel, and no exception is thrown. -/
theorem isDir_root {σ : Type} (zk : ZooKeeper σ) (fuel : Nat) (w : World σ)
    (hmode : w.is_hybrid_mode = true) :
    isDir zk "/" fuel w = .returns true w := by
  simp [isDir, hmode]

/-- Witness of C9: over the counting store the root is a directory although it is
recorded as a file, and the call counter stays at zero. -/
theorem isDir_root_witness :
    "/" ∈ countedWorld.for_sure_files ∧
    isDir (counting memZk) "/" 0 countedWorld = .returns true countedWorld :=
  ⟨by decide, isDir_root (counting memZk) 0 countedWorld rfl⟩

/-! ## Existence -/

/-- Claim C10 (`exists`): with `rc` the answer of `zoo_exists`, `exists` returns false
exactly when `rc` is `ZNONODE`, returns true exactly when `rc` is `ZOK`, and for any
other `rc` throws a `ZooFileException` carrying `rc`; it throws nothing when the node
is absent. -/
theorem exists_outcome {σ : Type} (zk : ZooKeeper σ) (p : String) (w : World σ) :
    ((∃ w1, exists_ zk p w = .returns false w1) ↔ (zk.zoo_exists w.store p 0).1 = ZNONODE) ∧
    ((∃ w1, exists_ zk p w = .returns true w1) ↔ (zk.zoo_exists w.store p 0).1 = ZOK) ∧
    ((zk.zoo_exists w.store p 0).1 ≠ ZNONODE → (zk.zoo_exists w.store p 0).1 ≠ ZOK →
      exists_ zk p w =
        .throws (.zooFile ⟨"An error occurred checking the existence of file: " ++ p,
          (zk.zoo_exists w.store p 0).1⟩) (w.withStore (zk.zoo_exists w.store p 0).2)) ∧
    ((zk.zoo_exists w.store p 0).1 = ZNONODE → ∀ e w1, exists_ zk p w ≠ .throws e w1) := by
  unfold exists_
  by_cases h1 : (zk.zoo_exists w.store p 0).1 = ZNONODE
  · have h2 : (zk.zoo_exists w.store p 0).1 ≠ ZOK := fun h => ZOK_ne_ZNONODE (h ▸ h1)
    simp [h1, h2, ZOK_ne_ZNONODE.symm]
  · by_cases h2 : (zk.zoo_exists w.store p 0).1 = ZOK
    · simp [h1, h2, ZOK_ne_ZNONODE]
    · simp [h1, h2]

/-- Witness of C10: a session that answers `ZCONNECTIONLOSS` (-4) makes `exists` throw
with that code. -/
theorem exists_outcome_witness :
    exists_ (failingZk (-4)) "/a" (initialWorld ()) =
      .throws (.zooFile ⟨"An error occurred checking the existence of file: /a", -4⟩)
        (initialWorld ()) :=
  (exists_outcome (failingZk (-4)) "/a" (initialWorld ())).2.2.1 (by decide) (by decide)

/-! ## One activation of `getContent` -/

theorem withStore_store {σ : Type} (w : World σ) : w.withStore w.store = w := rfl

theorem MAX_FILE_SIZE_eq : MAX_FILE_SIZE = 262144 := rfl

/-- Over a store that holds `b` at `p`, with `b` shorter than 2147483648 bytes, one
activation of `getContent` returns `b`. -/
theorem getContent_of_holds {σ : Type} (zk : ZooKeeper σ) (p : String) (b : List Byte)
    (fuel : Nat) (w : World σ) (h : Holds zk w.store p b) (hlen : b.length < 2 ^ 31) :
    getContent zk p (fuel + 1) w = .returns b w := by
  have hM := MAX_FILE_SIZE_eq
  have hu : asUnsigned (b.length : Int) = b.length := by
    rw [asUnsigned_natCast]; omega
  have hs : asSigned b.length = (b.length : Int) := asSigned_of_lt _ hlen
  unfold getContent
  simp only [h 0 MAX_FILE_SIZE, withStore_store, ne_eq, not_true_eq_false, if_false, hu]
  by_cases hbig : b.length > MAX_FILE_SIZE
  · have hnn : ¬ ((b.length : Int) < 0) := by omega
    simp only [hbig, if_true, hs, hnn, if_false, Int.toNat_ofNat, h 0 b.length, withStore_store,
      ne_eq, not_true_eq_false, hu]
    rw [take_copyInto _ _ _ (by simp) (by simp [length_uninitialised])]
    simp
  · simp only [hbig, if_false]
    by_cases hpos : b.length > 0
    · simp only [hpos, if_true]
      rw [take_copyInto _ _ _ (by rw [List.length_take]; omega) (by rw [List.length_replicate]; omega)]
      rw [List.take_take]
      simp
      omega
    · have : b = [] := List.length_eq_zero.mp (by omega)
      simp [this]

/-- Over a store that holds at `p` a payload of at least 2147483648 bytes (and less than
4294967296), one activation of `getContent` throws `std::bad_array_new_length`. -/
theorem getContent_of_holds_huge {σ : Type} (zk : ZooKeeper σ) (p : String) (b : List Byte)
    (fuel : Nat) (w : World σ) (h : Holds zk w.store p b)
    (h1 : 2 ^ 31 ≤ b.length) (h2 : b.length < 2 ^ 32) :
    getContent zk p (fuel + 1) w = .throws .bad_array_new_length w := by
  have hM := MAX_FILE_SIZE_eq
  have hu : asUnsigned (b.length : Int) = b.length := by
    rw [asUnsigned_natCast]; omega
  have hs := asSigned_neg b.length h1 h2
  have hbig : b.length > MAX_FILE_SIZE := by omega
  unfold getContent
  simp only [h 0 MAX_FILE_SIZE, withStore_store, ne_eq, not_true_eq_false, if_false, hu,
    hbig, if_true, hs]

/-! ## The in-memory ensemble meets the store contracts -/

theorem memZk_holds (s : MemStore) (p : String) (b : List Byte)
    (h : MemStore.payload s p = some b) : Holds memZk s p b := by
  intro watch N
  simp [memZk, MemStore.zoo_get, h]

theorem payload_replace (s : MemStore) (p : String) (b d : List Byte)
    (h : MemStore.payload s p = some d) :
    MemStore.payload (MemStore.replace s p b) p = some b := by
  induction s with
  | nil => simp [MemStore.payload] at h
  | cons n s ih =>
    obtain ⟨q, e⟩ := n
    by_cases hq : q = p
    · simp [MemStore.payload, MemStore.replace, hq]
    · simp only [MemStore.payload, hq, if_false] at h
      simp [MemStore.payload, MemStore.replace, hq, ih h]

theorem payload_erase (s : MemStore) (p : String) :
    MemStore.payload (MemStore.erase s p) p = none := by
  induction s with
  | nil => simp [MemStore.payload, MemStore.erase]
  | cons n s ih =>
    obtain ⟨q, e⟩ := n
    by_cases hq : q = p
    · simp [MemStore.erase, hq, ih]
    · simp [MemStore.erase, hq, MemStore.payload, ih]

theorem memZk_set_ok (s : MemStore) (p : String) (b d : List Byte) (v : Int)
    (h : MemStore.payload s p = some d) : (memZk.zoo_set s p b b.length v).1 = ZOK := by
  have hlen : ¬ ((b.length : Int) < 0 ∨ (b.length : Int) < (b.length : Int)) := by omega
  simp only [memZk, MemStore.zoo_set, h, hlen, if_false]

theorem memZk_readsBackWrites : ReadsBackWrites memZk := by
  intro s p b v hok
  have hlen : ¬ ((b.length : Int) < 0 ∨ (b.length : Int) < (b.length : Int)) := by omega
  apply memZk_holds
  cases hp : MemStore.payload s p with
  | none =>
    simp only [memZk, MemStore.zoo_set, hp, hlen, if_false] at hok
    exact absurd hok (by decide)
  | some d =>
    simp only [memZk, MemStore.zoo_set, hp, hlen, if_false, Int.toNat_ofNat, List.take_length]
    exact payload_replace s p b d hp

theorem memZk_absentAfterDelete : AbsentAfterDelete memZk := by
  intro s p v hok watch
  cases hp : MemStore.payload s p with
  | none =>
    simp only [memZk, MemStore.zoo_delete, hp] at hok
    exact absurd hok (by decide)
  | some d =>
    by_cases hc : MemStore.childrenOf s p = []
    · simp [memZk, MemStore.zoo_delete, MemStore.zoo_exists, hp, hc, payload_erase]
    · simp only [memZk, MemStore.zoo_delete, hp, ne_eq, hc, not_false_eq_true, if_true] at hok
      exact absurd hok (by decide)

theorem twoGiB_length : twoGiB.length = 2 ^ 31 := List.length_replicate _ _

theorem oversized_length : oversized.length = MAX_FILE_SIZE + 1 := List.length_replicate _ _

/-! ## Removal -/

/-- Claim C7 (removal clears the cache): for every path, cache and store state in which
`zoo_delete` succeeds, `remove` returns, the path is then in neither `for_sure_files`
nor `for_sure_directories`, and, over a store that reports a deleted node as absent, a
subsequent `exists` returns false. -/
theorem remove_clears_cache {σ : Type} (zk : ZooKeeper σ) (hzk : AbsentAfterDelete zk)
    (p : String) (w : World σ) (hdel : (zk.zoo_delete w.store p (-1)).1 = ZOK) :
    ∃ w1, remove zk p w = .returns () w1 ∧
      p ∉ w1.for_sure_files ∧ p ∉ w1.for_sure_directories ∧
      exists_ zk p w1 = .returns false (w1.withStore (zk.zoo_exists w1.store p 0).2) := by
  simp only [remove, hdel, ne_eq, not_true_eq_false, if_false]
  refine ⟨_, rfl, ?_, ?_, ?_⟩
  · simp [World.withStore]
  · simp [World.withStore]
  · simp only [exists_, World.withStore, hzk w.store p (-1) hdel 0, if_true]

/-- Witness of C7: in the scenario store, `/a` recorded as a file and then removed. -/
theorem remove_clears_cache_witness :
    "/a" ∈ (markAsFile "/a" (initialWorld scenarioStore)).for_sure_files ∧
    ∃ w1, remove memZk "/a" (markAsFile "/a" (initialWorld scenarioStore)) = .returns () w1 ∧
      "/a" ∉ w1.for_sure_files ∧ "/a" ∉ w1.for_sure_directories ∧
      exists_ memZk "/a" w1 = .returns false (w1.withStore (memZk.zoo_exists w1.store "/a" 0).2) :=
  ⟨by decide,
   remove_clears_cache memZk memZk_absentAfterDelete "/a"
     (markAsFile "/a" (initialWorld scenarioStore)) (by decide)⟩

/-! ## Content round trip -/

/-- Claim C5, amended (content round trip): for every byte sequence `b` of fewer than
2147483648 bytes (empty, of at most 262144 bytes, or longer) and every path at which
`zoo_set` succeeds, over a store that reads back what was written (a read for `N` bytes
copies the first `min N length` bytes, reports the true total length, and nothing else
changes the store), `setContent(p, b)` returns and `getContent(p)` then returns exactly
`b`, in one activation. -/
theorem content_round_trip {σ : Type} (zk : ZooKeeper σ) (hzk : ReadsBackWrites zk)
    (p : String) (b : List Byte) (fuel : Nat) (w : World σ)
    (hlen : b.length < 2 ^ 31)
    (hset : (zk.zoo_set w.store p b b.length (-1)).1 = ZOK) :
    setContent zk p b w =
      .returns () (w.withStore (zk.zoo_set w.store p b b.length (-1)).2) ∧
    getContent zk p (fuel + 1) (w.withStore (zk.zoo_set w.store p b b.length (-1)).2) =
      .returns b (w.withStore (zk.zoo_set w.store p b b.length (-1)).2) := by
  constructor
  · simp only [setContent, asSigned_of_lt _ hlen, hset, ne_eq, not_true_eq_false, if_false]
  · exact getContent_of_holds zk p b fuel _ (hzk w.store p b (-1) hset) hlen

/-- Witness of C5: the empty payload, a short payload and a payload of 262145 bytes,
each written to `/a` of the scenario store and read back. -/
theorem content_round_trip_witness :
    (∃ w1, setContent memZk "/a" [] (initialWorld scenarioStore) = .returns () w1 ∧
      getContent memZk "/a" 1 w1 = .returns [] w1) ∧
    (∃ w1, setContent memZk "/a" [1, 2, 3] (initialWorld scenarioStore) = .returns () w1 ∧
      getContent memZk "/a" 1 w1 = .returns [1, 2, 3] w1) ∧
    (∃ w1, setContent memZk "/a" oversized (initialWorld scenarioStore) = .returns () w1 ∧
      getContent memZk "/a" 1 w1 = .returns oversized w1) :=
  ⟨⟨_, content_round_trip memZk memZk_readsBackWrites "/a" [] 0 (initialWorld scenarioStore)
      (by decide) (memZk_set_ok scenarioStore "/a" [] [] (-1) rfl)⟩,
   ⟨_, content_round_trip memZk memZk_readsBackWrites "/a" [1, 2, 3] 0
      (initialWorld scenarioStore) (by decide)
      (memZk_set_ok scenarioStore "/a" [1, 2, 3] [] (-1) rfl)⟩,
   ⟨_, content_round_trip memZk memZk_readsBackWrites "/a" oversized 0
      (initialWorld scenarioStore) (by rw [oversized_length]; decide)
      (memZk_set_ok scenarioStore "/a" oversized [] (-1) rfl)⟩⟩

/-- Claim C5 as stated fails for a payload of 2147483648 bytes: its length does not fit
the `int` handed to `zoo_set`, so `setContent` passes a negative length and throws; and
even over a store that already holds the payload at `/a`, the length reported by the
first read makes `previousLength` negative and `getContent` throws
`std::bad_array_new_length` instead of returning the payload. -/
theorem content_round_trip_fails_at_2GiB :
    setContent memZk "/a" twoGiB (initialWorld scenarioStore) =
      .throws (.zooFile ⟨"An error occurred setting the contents of file: /a", ZBADARGUMENTS⟩)
        (initialWorld scenarioStore) ∧
    ∀ fuel, getContent memZk "/a" (fuel + 1) (initialWorld [("/a", twoGiB)]) =
      .throws .bad_array_new_length (initialWorld [("/a", twoGiB)]) := by
  constructor
  · have hs : asSigned twoGiB.length = -2147483648 := by
      rw [twoGiB_length]; decide
    simp only [setContent, memZk, MemStore.zoo_set, hs]
    rfl
  · intro fuel
    exact getContent_of_holds_huge memZk "/a" twoGiB fuel _ (memZk_holds _ _ _ rfl)
      (by rw [twoGiB_length]) (by rw [twoGiB_length]; decide)

/-! ## Reads over a scripted store -/

theorem withStore_withStore {σ : Type} (w : World σ) (s t : σ) :
    (w.withStore s).withStore t = w.withStore t := rfl

/-- Over the scripted store, when the payloads seen by the two reads differ in length,
the activation ends in the self-call, made after the two reads. -/
theorem getContent_scripted_restart (script : Nat → List Byte) (p : String) (fuel : Nat)
    (w : World Nat) (h0 : MAX_FILE_SIZE < (script w.store).length)
    (h1 : (script w.store).length < 2 ^ 31) (h2 : (script (w.store + 1)).length < 2 ^ 32)
    (hne : (script w.store).length ≠ (script (w.store + 1)).length) :
    getContent (scriptedZk script) p (fuel + 1) w =
      getContent (scriptedZk script) p fuel (w.withStore (w.store + 2)) := by
  have hu : asUnsigned ((script w.store).length : Int) = (script w.store).length := by
    rw [asUnsigned_natCast]; omega
  have hu2 : asUnsigned ((script (w.store + 1)).length : Int) = (script (w.store + 1)).length := by
    rw [asUnsigned_natCast]; omega
  have hs := asSigned_of_lt _ h1
  have hnn : ¬ (((script w.store).length : Int) < 0) := by omega
  conv_lhs => unfold getContent
  simp only [scriptedZk, World.withStore, ZOK, ne_eq, not_true_eq_false, if_false, hu,
    gt_iff_lt, h0, if_true, hs, hnn, Int.toNat_ofNat, hu2, hne, not_false_eq_true]

/-- Over the scripted store, when both reads see the same oversized payload, the
activation returns that payload. -/
theorem getContent_scripted_stable (script : Nat → List Byte) (p : String) (fuel : Nat)
    (w : World Nat) (h0 : MAX_FILE_SIZE < (script w.store).length)
    (h1 : (script w.store).length < 2 ^ 31) (heq : script (w.store + 1) = script w.store) :
    getContent (scriptedZk script) p (fuel + 1) w =
      .returns (script w.store) (w.withStore (w.store + 2)) := by
  have hu : asUnsigned ((script w.store).length : Int) = (script w.store).length := by
    rw [asUnsigned_natCast]; omega
  have hs := asSigned_of_lt _ h1
  have hnn : ¬ (((script w.store).length : Int) < 0) := by omega
  unfold getContent
  simp only [scriptedZk, World.withStore, ZOK, ne_eq, not_true_eq_false, if_false, hu,
    gt_iff_lt, h0, if_true, hs, hnn, Int.toNat_ofNat, heq]
  rw [take_copyInto _ _ _ (by simp) (by simp [length_uninitialised])]
  simp

/-- Over the scripted store, a first read that sees a payload of at least 2147483648
bytes (and less than 4294967296) ends the activation with `std::bad_array_new_length`. -/
theorem getContent_scripted_huge (script : Nat → List Byte) (p : String) (fuel : Nat)
    (w : World Nat) (h1 : 2 ^ 31 ≤ (script w.store).length)
    (h2 : (script w.store).length < 2 ^ 32) :
    getContent (scriptedZk script) p (fuel + 1) w =
      .throws .bad_array_new_length (w.withStore (w.store + 1)) := by
  have hM := MAX_FILE_SIZE_eq
  have hu : asUnsigned ((script w.store).length : Int) = (script w.store).length := by
    rw [asUnsigned_natCast]; omega
  have hs := asSigned_neg _ h1 h2
  have h0 : MAX_FILE_SIZE < (script w.store).length := by omega
  unfold getContent
  simp only [scriptedZk, World.withStore, ZOK, ne_eq, not_true_eq_false, if_false, hu,
    gt_iff_lt, h0, if_true, hs]

/-- In a script that grows up to read `k` and is stable from then on, no payload is
longer than the final one. -/
theorem script_length_le (script : Nat → List Byte) (k : Nat) (s : List Byte)
    (hgrow : ∀ i, i < k → (script i).length < (script (i + 1)).length)
    (hstable : ∀ i, k ≤ i → script i = s) :
    ∀ d i, k - i = d → (script i).length ≤ s.length := by
  intro d
  induction d with
  | zero =>
    intro i hi
    rw [hstable i (by omega)]
  | succ d ih =>
    intro i hi
    have := hgrow i (by omega)
    have := ih (i + 1) (by omega)
    omega

/-- From read `n` on, `(k - n + 1) / 2 + 1` activations suffice, and each makes two reads. -/
theorem getContent_scripted_from (script : Nat → List Byte) (k : Nat) (s : List Byte)
    (p : String)
    (hbig : ∀ i, MAX_FILE_SIZE < (script i).length)
    (hgrow : ∀ i, i < k → (script i).length < (script (i + 1)).length)
    (hstable : ∀ i, k ≤ i → script i = s)
    (hint : s.length < 2 ^ 31) :
    ∀ d n, k - n = d → ∀ fuel (w : World Nat), w.store = n → (d + 1) / 2 + 1 ≤ fuel →
      getContent (scriptedZk script) p fuel w =
        .returns s (w.withStore (n + 2 * ((d + 1) / 2 + 1))) := by
  have hle : ∀ i, (script i).length ≤ s.length :=
    fun i => script_length_le script k s hgrow hstable (k - i) i rfl
  intro d
  induction d using Nat.strong_induction_on with
  | _ d ih =>
    intro n hd fuel w hw hfuel
    obtain ⟨f, rfl⟩ : ∃ f, fuel = f + 1 := ⟨fuel - 1, by omega⟩
    subst hw
    by_cases hk : k ≤ w.store
    · have hd0 : d = 0 := by omega
      subst hd0
      have e0 := hstable w.store hk
      have e1 := hstable (w.store + 1) (by omega)
      rw [getContent_scripted_stable script p f w (hbig _) (by rw [e0]; exact hint)
        (by rw [e0, e1]), e0]
    · have hlt := hgrow w.store (by omega)
      have hl1 := hle (w.store + 1)
      rw [getContent_scripted_restart script p f w (hbig _) (by omega) (by omega) (by omega)]
      rw [ih (k - (w.store + 2)) (by omega) (w.store + 2) rfl f _ rfl (by omega),
        withStore_withStore]
      congr 2
      omega

theorem hugeScript_zero : hugeScript 0 = oversized := rfl

theorem hugeScript_succ (i : Nat) : hugeScript (i + 1) = twoGiB := by
  simp only [hugeScript, Nat.succ_ne_zero, if_false]

/-! ## Oversized retry -/

/-- Claim C6, amended (oversized retry termination): over a store double whose read
number `i` sees the payload `script i`, every payload longer than 262144 bytes, the
lengths growing strictly up to read `k` and every read from `k` on seeing the final
payload `s`, of fewer than 2147483648 bytes: with fuel for `(k + 1) / 2 + 1` activations
`getContent` returns exactly `s`, after `2 * ((k + 1) / 2 + 1)` reads; and whenever the
two reads of an activation see different lengths, the activation is the self-call made
after those two reads, which starts again with the bounded read. -/
theorem getContent_growing_then_stable (script : Nat → List Byte) (k : Nat) (s : List Byte)
    (p : String) (w : World Nat)
    (hbig : ∀ i, MAX_FILE_SIZE < (script i).length)
    (hgrow : ∀ i, i < k → (script i).length < (script (i + 1)).length)
    (hstable : ∀ i, k ≤ i → script i = s)
    (hint : s.length < 2 ^ 31)
    (hstart : w.store = 0) :
    (∀ fuel, (k + 1) / 2 + 1 ≤ fuel →
      getContent (scriptedZk script) p fuel w =
        .returns s (w.withStore (2 * ((k + 1) / 2 + 1)))) ∧
    (∀ fuel (w1 : World Nat), (script w1.store).length ≠ (script (w1.store + 1)).length →
      getContent (scriptedZk script) p (fuel + 1) w1 =
        getContent (scriptedZk script) p fuel (w1.withStore (w1.store + 2))) := by
  have hle : ∀ i, (script i).length ≤ s.length :=
    fun i => script_length_le script k s hgrow hstable (k - i) i rfl
  constructor
  · intro fuel hfuel
    have := getContent_scripted_from script k s p hbig hgrow hstable hint k 0 rfl fuel w
      hstart hfuel
    simpa using this
  · intro fuel w1 hne
    have h1 := hle w1.store
    have h2 := hle (w1.store + 1)
    exact getContent_scripted_restart script p fuel w1 (hbig _) (by omega) (by omega) hne

/-- Witness of C6: the script grows from 262145 to 262147 bytes over its first two reads;
two activations and four reads return the final payload. -/
theorem getContent_growing_then_stable_witness :
    getContent (scriptedZk growingScript) "/a" 2 (initialWorld 0) =
      .returns (growingScript 2) (initialWorld 4) :=
  (getContent_growing_then_stable growingScript 2 (growingScript 2) "/a" (initialWorld 0)
    (by intro i; simp only [growingScript, List.length_replicate]; omega)
    (by intro i hi; simp only [growingScript, List.length_replicate]; omega)
    (by intro i hi; simp only [growingScript, min_eq_right hi, min_self])
    (by simp only [growingScript, List.length_replicate]; decide)
    rfl).1 2 (by decide)

/-- Claim C6 as stated fails for a double whose payload grows once, from 262145 bytes to
a final payload of 2147483648 bytes: the first activation restarts, and in the second
the reported length makes `previousLength` negative, so `getContent` throws
`std::bad_array_new_length` after three reads and returns with no amount of fuel. -/
theorem getContent_growing_fails_at_2GiB :
    (∀ i, MAX_FILE_SIZE < (hugeScript i).length) ∧
    (∀ i, i < 1 → (hugeScript i).length < (hugeScript (i + 1)).length) ∧
    (∀ i, 1 ≤ i → hugeScript i = twoGiB) ∧
    (∀ fuel, getContent (scriptedZk hugeScript) "/a" (fuel + 2) (initialWorld 0) =
      .throws .bad_array_new_length (initialWorld 3)) ∧
    (∀ fuel w1, getContent (scriptedZk hugeScript) "/a" fuel (initialWorld 0) ≠
      .returns twoGiB w1) := by
  have hM := MAX_FILE_SIZE_eq
  have hthrow : ∀ fuel, getContent (scriptedZk hugeScript) "/a" (fuel + 2) (initialWorld 0) =
      .throws .bad_array_new_length (initialWorld 3) := by
    intro fuel
    rw [getContent_scripted_restart hugeScript "/a" (fuel + 1) (initialWorld 0)
      (by show MAX_FILE_SIZE < oversized.length; rw [oversized_length]; omega)
      (by show oversized.length < 2 ^ 31; rw [oversized_length]; omega)
      (by show twoGiB.length < 2 ^ 32; rw [twoGiB_length]; decide)
      (by show oversized.length ≠ twoGiB.length; rw [oversized_length, twoGiB_length]; omega)]
    exact getContent_scripted_huge hugeScript "/a" fuel ((initialWorld 0).withStore 2)
      (by show 2 ^ 31 ≤ twoGiB.length; rw [twoGiB_length])
      (by show twoGiB.length < 2 ^ 32; rw [twoGiB_length]; decide)
  refine ⟨?_, ?_, ?_, hthrow, ?_⟩
  · intro i
    cases i with
    | zero => rw [hugeScript_zero, oversized_length]; omega
    | succ i => rw [hugeScript_succ, twoGiB_length]; omega
  · intro i hi
    have : i = 0 := by omega
    subst this
    rw [hugeScript_zero, hugeScript_succ, oversized_length, twoGiB_length]; omega
  · intro i hi
    obtain ⟨j, rfl⟩ : ∃ j, i = j + 1 := ⟨i - 1, by omega⟩
    exact hugeScript_succ j
  · intro fuel w1 h
    match fuel, h with
    | 0, h => simp [getContent] at h
    | 1, h =>
      rw [getContent_scripted_restart hugeScript "/a" 0 (initialWorld 0)
        (by show MAX_FILE_SIZE < oversized.length; rw [oversized_length]; omega)
        (by show oversized.length < 2 ^ 31; rw [oversized_length]; omega)
        (by show twoGiB.length < 2 ^ 32; rw [twoGiB_length]; decide)
        (by show oversized.length ≠ twoGiB.length; rw [oversized_length, twoGiB_length]; omega)]
        at h
      simp [getContent] at h
    | fuel + 2, h =>
      rw [hthrow fuel] at h
      exact absurd h (by simp)

/-! ## The cache is a frame of every call but the marking calls and `remove` -/

theorem SameCache.refl {σ : Type} (w : World σ) : SameCache w w := ⟨rfl, rfl, rfl⟩

theorem SameCache.withStore {σ : Type} (w : World σ) (s : σ) : SameCache w (w.withStore s) :=
  ⟨rfl, rfl, rfl⟩

theorem SameCache.trans {σ : Type} {w w1 w2 : World σ} (h1 : SameCache w w1)
    (h2 : SameCache w1 w2) : SameCache w w2 :=
  ⟨h2.1.trans h1.1, h2.2.1.trans h1.2.1, h2.2.2.trans h1.2.2⟩

/-- One activation of `getContent`, in terms of its two reads. -/
theorem getContent_step {σ : Type} (zk : ZooKeeper σ) (p : String) (fuel : Nat) (w : World σ) :
    getContent zk p (fuel + 1) w =
      if (firstRead zk p w).1.rc ≠ ZOK then
        .throws (.zooFile ⟨"An error occurred getting the contents of file: " ++ p,
          (firstRead zk p w).1.rc⟩) (w.withStore (firstRead zk p w).2)
      else if asUnsigned (firstRead zk p w).1.buffer_len > MAX_FILE_SIZE then
        if asSigned (asUnsigned (firstRead zk p w).1.buffer_len) < 0 then
          .throws .bad_array_new_length (w.withStore (firstRead zk p w).2)
        else if (secondRead zk p w).1.rc ≠ ZOK then
          .throws (.zooFile ⟨"An error occurred getting the contents of file: " ++ p,
            (secondRead zk p w).1.rc⟩) (w.withStore (secondRead zk p w).2)
        else if asUnsigned (asSigned (asUnsigned (firstRead zk p w).1.buffer_len)) ≠
            asUnsigned (secondRead zk p w).1.buffer_len then
          getContent zk p fuel (w.withStore (secondRead zk p w).2)
        else
          .returns
            ((copyInto
              (uninitialised w.heap 0
                (asSigned (asUnsigned (firstRead zk p w).1.buffer_len)).toNat)
              (secondRead zk p w).1.written).take (asUnsigned (secondRead zk p w).1.buffer_len))
            (w.withStore (secondRead zk p w).2)
      else if asUnsigned (firstRead zk p w).1.buffer_len > 0 then
        .returns
          ((copyInto (List.replicate MAX_FILE_SIZE 0) (firstRead zk p w).1.written).take
            (asUnsigned (firstRead zk p w).1.buffer_len))
          (w.withStore (firstRead zk p w).2)
      else .returns [] (w.withStore (firstRead zk p w).2) := rfl

theorem getContent_sameCache {σ : Type} (zk : ZooKeeper σ) (p : String) (fuel : Nat) :
    ∀ (w w1 : World σ), (getContent zk p fuel w).continues = some w1 → SameCache w w1 := by
  induction fuel with
  | zero =>
    intro w w1 h
    simp [getContent, Result.continues] at h
  | succ fuel ih =>
    intro w w1 h
    rw [getContent_step] at h
    split_ifs at h
    all_goals first
      | (simp only [Result.continues, Option.some.injEq] at h
         subst h
         exact SameCache.withStore _ _)
      | exact (SameCache.withStore w _).trans (ih _ _ h)

theorem getContentAndSetWatch_sameCache {σ : Type} (zk : ZooKeeper σ) (p : String)
    (w w1 : World σ) (h : (getContentAndSetWatch zk p w).continues = some w1) :
    SameCache w w1 := by
  simp only [getContentAndSetWatch] at h
  split_ifs at h
  all_goals first
    | (simp only [Result.continues, Option.some.injEq] at h
       subst h
       exact SameCache.withStore _ _)
    | simp [Result.continues] at h

theorem getLength_sameCache {σ : Type} (zk : ZooKeeper σ) (p : String) (fuel : Nat)
    (w w1 : World σ) (h : (getLength zk p fuel w).continues = some w1) : SameCache w w1 := by
  apply getContent_sameCache zk p fuel w w1
  unfold getLength at h
  cases hc : getContent zk p fuel w <;> simp_all [Result.continues]

theorem getChildren_sameCache {σ : Type} (zk : ZooKeeper σ) (p : String)
    (w w1 : World σ) (h : (getChildren zk p w).continues = some w1) : SameCache w w1 := by
  simp only [getChildren] at h
  split_ifs at h
  all_goals
    simp only [Result.continues, Option.some.injEq] at h
    subst h
    exact SameCache.withStore _ _

theorem hasChildren_sameCache {σ : Type} (zk : ZooKeeper σ) (p : String)
    (w w1 : World σ) (h : (hasChildren zk p w).continues = some w1) : SameCache w w1 := by
  apply getChildren_sameCache zk p w w1
  unfold hasChildren at h
  cases hc : getChildren zk p w <;> simp_all [Result.continues]

theorem exists_sameCache {σ : Type} (zk : ZooKeeper σ) (p : String)
    (w w1 : World σ) (h : (exists_ zk p w).continues = some w1) : SameCache w w1 := by
  simp only [exists_] at h
  split_ifs at h
  all_goals
    simp only [Result.continues, Option.some.injEq] at h
    subst h
    exact SameCache.withStore _ _

theorem setContent_sameCache {σ : Type} (zk : ZooKeeper σ) (p : String) (b : List Byte)
    (w w1 : World σ) (h : (setContent zk p b w).continues = some w1) : SameCache w w1 := by
  simp only [setContent] at h
  split_ifs at h
  all_goals
    simp only [Result.continues, Option.some.injEq] at h
    subst h
    exact SameCache.withStore _ _

theorem create_sameCache {σ : Type} (zk : ZooKeeper σ) (p : String)
    (w w1 : World σ) (h : (create zk p w).continues = some w1) : SameCache w w1 := by
  simp only [create] at h
  split_ifs at h
  all_goals
    simp only [Result.continues, Option.some.injEq] at h
    subst h
    exact SameCache.withStore _ _

theorem isDir_sameCache {σ : Type} (zk : ZooKeeper σ) (p : String) (fuel : Nat)
    (w w1 : World σ) (h : (isDir zk p fuel w).continues = some w1) : SameCache w w1 := by
  unfold isDir at h
  cases hc : getChildren zk p w with
  | returns children w2 =>
    have h2 : SameCache w w2 :=
      getChildren_sameCache zk p w w2 (by simp [hc, Result.continues])
    cases hl : getLength zk p fuel w2 with
    | returns n w3 =>
      have h3 : SameCache w2 w3 :=
        getLength_sameCache zk p fuel w2 w3 (by simp [hl, Result.continues])
      simp only [hc, hl] at h
      split_ifs at h <;> simp [Result.continues] at h <;> subst h <;>
        first | exact SameCache.refl _ | exact h2 | exact h2.trans h3
    | throws e w3 =>
      have h3 : SameCache w2 w3 :=
        getLength_sameCache zk p fuel w2 w3 (by simp [hl, Result.continues])
      simp only [hc, hl] at h
      split_ifs at h <;> simp [Result.continues] at h <;> subst h <;>
        first | exact SameCache.refl _ | exact h2 | exact h2.trans h3
    | undefinedBehaviour =>
      simp only [hc, hl] at h
      split_ifs at h <;> simp [Result.continues] at h <;> subst h <;>
        first | exact SameCache.refl _ | exact h2
    | outOfFuel =>
      simp only [hc, hl] at h
      split_ifs at h <;> simp [Result.continues] at h <;> subst h <;>
        first | exact SameCache.refl _ | exact h2
  | throws e w2 =>
    have h2 : SameCache w w2 :=
      getChildren_sameCache zk p w w2 (by simp [hc, Result.continues])
    simp only [hc] at h
    split_ifs at h <;> simp [Result.continues] at h <;> subst h <;>
      first | exact SameCache.refl _ | exact h2
  | undefinedBehaviour =>
    simp only [hc] at h
    split_ifs at h <;> simp [Result.continues] at h <;> subst h <;> exact SameCache.refl _
  | outOfFuel =>
    simp only [hc] at h
    split_ifs at h <;> simp [Result.continues] at h <;> subst h <;> exact SameCache.refl _

/-! ## `isDir` is a query -/

/-- Claim C11 (`isDir` is a pure query on the cache): in either mode, for every path,
cache and store state, the world in which `isDir` returns or throws has the
`for_sure_files` and `for_sure_directories` it started with; and so, in the spec's
scenario, `isDir("/a")` is true while `/a` is empty and childless, and false once
`setContent("/a", "x")` has run, the content check being made again. -/
theorem isDir_pure_query {σ : Type} (zk : ZooKeeper σ) (p : String) (fuel : Nat)
    (w : World σ) :
    (∀ b w1, isDir zk p fuel w = .returns b w1 →
      w1.for_sure_files = w.for_sure_files ∧
      w1.for_sure_directories = w.for_sure_directories) ∧
    (∀ e w1, isDir zk p fuel w = .throws e w1 →
      w1.for_sure_files = w.for_sure_files ∧
      w1.for_sure_directories = w.for_sure_directories) ∧
    (isDir memZk "/a" 1 hybridWorld = .returns true hybridWorld ∧
      ∃ w1, setContent memZk "/a" [120] hybridWorld = .returns () w1 ∧
        isDir memZk "/a" 1 w1 = .returns false w1) := by
  refine ⟨?_, ?_, rfl, _, rfl, rfl⟩
  · intro b w1 h
    have := isDir_sameCache zk p fuel w w1 (by simp [h, Result.continues])
    exact ⟨this.1, this.2.1⟩
  · intro e w1 h
    have := isDir_sameCache zk p fuel w w1 (by simp [h, Result.continues])
    exact ⟨this.1, this.2.1⟩

/-- Witness of C11: over the counting store `isDir("/b/c")` makes two calls and returns
false, and on a lost session `isDir("/a")` makes one call and throws; the cache is as it
was in both worlds. -/
theorem isDir_pure_query_witness :
    (isDir (counting memZk) "/b/c" 1 countedWorld =
        .returns false (countedWorld.withStore (scenarioStore, 2)) ∧
      (countedWorld.withStore (scenarioStore, 2)).for_sure_files = countedWorld.for_sure_files ∧
      (countedWorld.withStore (scenarioStore, 2)).for_sure_directories =
        countedWorld.for_sure_directories) ∧
    (isDir (counting (failingZk (-4))) "/a" 1 (initialWorld ((), 0)) =
        .throws (.zooFile ⟨"An error occurred getting children of file: /a", -4⟩)
          (initialWorld ((), 1)) ∧
      (initialWorld ((), 1) : World (Unit × Nat)).for_sure_files =
        (initialWorld ((), 0) : World (Unit × Nat)).for_sure_files ∧
      (initialWorld ((), 1) : World (Unit × Nat)).for_sure_directories =
        (initialWorld ((), 0) : World (Unit × Nat)).for_sure_directories) :=
  ⟨⟨rfl, (isDir_pure_query (counting memZk) "/b/c" 1 countedWorld).1 false
      (countedWorld.withStore (scenarioStore, 2)) rfl⟩,
   ⟨rfl, (isDir_pure_query (counting (failingZk (-4))) "/a" 1 (initialWorld ((), 0))).2.1
      (.zooFile ⟨"An error occurred getting children of file: /a", -4⟩)
      (initialWorld ((), 1)) rfl⟩⟩

/-! ## Failing removal -/

/-- Claim C15 (`remove` is atomic on failure): for every path, cache and store state,
when `zoo_delete` answers anything but `ZOK`, `remove` throws a `ZooFileException`
carrying that code, and `for_sure_files` and `for_sure_directories` are unchanged, so
the path keeps whatever classification it had. -/
theorem remove_failure_atomic {σ : Type} (zk : ZooKeeper σ) (p : String) (w : World σ)
    (hdel : (zk.zoo_delete w.store p (-1)).1 ≠ ZOK) :
    ∃ w1, remove zk p w =
        .throws (.zooFile ⟨"An error occurred deleting the file: " ++ p,
          (zk.zoo_delete w.store p (-1)).1⟩) w1 ∧
      w1.for_sure_files = w.for_sure_files ∧
      w1.for_sure_directories = w.for_sure_directories := by
  refine ⟨w.withStore (zk.zoo_delete w.store p (-1)).2, ?_, rfl, rfl⟩
  simp only [remove, hdel, ne_eq, not_false_eq_true, if_true]

/-- Witness of C15: `/b` is recorded as a directory and has the child `/b/c`, so the
ensemble refuses to delete it with `ZNOTEMPTY`; `remove` throws and `/b` is still
recorded. -/
theorem remove_failure_atomic_witness :
    "/b" ∈ (markAsDirectory "/b" hybridWorld).for_sure_directories ∧
    ∃ w1, remove memZk "/b" (markAsDirectory "/b" hybridWorld) =
        .throws (.zooFile ⟨"An error occurred deleting the file: " ++ "/b",
          (memZk.zoo_delete (markAsDirectory "/b" hybridWorld).store "/b" (-1)).1⟩) w1 ∧
      w1.for_sure_files = (markAsDirectory "/b" hybridWorld).for_sure_files ∧
      w1.for_sure_directories = (markAsDirectory "/b" hybridWorld).for_sure_directories :=
  ⟨by decide, remove_failure_atomic memZk "/b" (markAsDirectory "/b" hybridWorld) (by decide)⟩

/-! ## How long a classification lasts -/

/-- One Node Handle call that is not a successful `remove` of `p` leaves `p` in
`for_sure_files` if it was there. -/
theorem runHandleCall_keeps_file {σ : Type} (zk : ZooKeeper σ) (fuel : Nat) (p : String)
    (w w1 : World σ) (c : HandleCall) (hp : p ∈ w.for_sure_files)
    (hno : ¬ (c = .remove p ∧ (zk.zoo_delete w.store p (-1)).1 = ZOK))
    (hrun : runHandleCall zk fuel w c = some w1) : p ∈ w1.for_sure_files := by
  cases c with
  | markAsFile q =>
    simp only [runHandleCall, Option.some.injEq] at hrun
    subst hrun
    exact (markAsFile_files q p w).2 (Or.inl hp)
  | markAsDirectory q =>
    simp only [runHandleCall, Option.some.injEq] at hrun
    subst hrun
    rw [markAsDirectory_files]
    exact hp
  | enableHybridMode =>
    simp only [runHandleCall, Option.some.injEq] at hrun
    subst hrun
    exact hp
  | exists_ q => rw [(exists_sameCache zk q w w1 hrun).1]; exact hp
  | isDir q => rw [(isDir_sameCache zk q fuel w w1 hrun).1]; exact hp
  | getChildren q => rw [(getChildren_sameCache zk q w w1 hrun).1]; exact hp
  | hasChildren q => rw [(hasChildren_sameCache zk q w w1 hrun).1]; exact hp
  | getContent q => rw [(getContent_sameCache zk q fuel w w1 hrun).1]; exact hp
  | getContentAndSetWatch q =>
    rw [(getContentAndSetWatch_sameCache zk q w w1 hrun).1]; exact hp
  | getLength q => rw [(getLength_sameCache zk q fuel w w1 hrun).1]; exact hp
  | setContent q b => rw [(setContent_sameCache zk q b w w1 hrun).1]; exact hp
  | create q => rw [(create_sameCache zk q w w1 hrun).1]; exact hp
  | remove q =>
    simp only [runHandleCall, remove] at hrun
    split_ifs at hrun with hrc
    · simp only [Result.continues, Option.some.injEq] at hrun
      subst hrun
      exact hp
    · simp only [Result.continues, Option.some.injEq] at hrun
      subst hrun
      have hq : p ≠ q := by
        rintro rfl
        exact hno ⟨rfl, not_not.mp hrc⟩
      simp [World.withStore, hq, hp]

/-- One Node Handle call that is not a successful `remove` of `p` leaves `p` in
`for_sure_directories` if it was there. -/
theorem runHandleCall_keeps_directory {σ : Type} (zk : ZooKeeper σ) (fuel : Nat) (p : String)
    (w w1 : World σ) (c : HandleCall) (hp : p ∈ w.for_sure_directories)
    (hno : ¬ (c = .remove p ∧ (zk.zoo_delete w.store p (-1)).1 = ZOK))
    (hrun : runHandleCall zk fuel w c = some w1) : p ∈ w1.for_sure_directories := by
  cases c with
  | markAsFile q =>
    simp only [runHandleCall, Option.some.injEq] at hrun
    subst hrun
    rw [markAsFile_directories]
    exact hp
  | markAsDirectory q =>
    simp only [runHandleCall, Option.some.injEq] at hrun
    subst hrun
    exact (markAsDirectory_directories q p w).2 (Or.inl hp)
  | enableHybridMode =>
    simp only [runHandleCall, Option.some.injEq] at hrun
    subst hrun
    exact hp
  | exists_ q => rw [(exists_sameCache zk q w w1 hrun).2.1]; exact hp
  | isDir q => rw [(isDir_sameCache zk q fuel w w1 hrun).2.1]; exact hp
  | getChildren q => rw [(getChildren_sameCache zk q w w1 hrun).2.1]; exact hp
  | hasChildren q => rw [(hasChildren_sameCache zk q w w1 hrun).2.1]; exact hp
  | getContent q => rw [(getContent_sameCache zk q fuel w w1 hrun).2.1]; exact hp
  | getContentAndSetWatch q =>
    rw [(getContentAndSetWatch_sameCache zk q w w1 hrun).2.1]; exact hp
  | getLength q => rw [(getLength_sameCache zk q fuel w w1 hrun).2.1]; exact hp
  | setContent q b => rw [(setContent_sameCache zk q b w w1 hrun).2.1]; exact hp
  | create q => rw [(create_sameCache zk q w w1 hrun).2.1]; exact hp
  | remove q =>
    simp only [runHandleCall, remove] at hrun
    split_ifs at hrun with hrc
    · simp only [Result.continues, Option.some.injEq] at hrun
      subst hrun
      exact hp
    · simp only [Result.continues, Option.some.injEq] at hrun
      subst hrun
      have hq : p ≠ q := by
        rintro rfl
        exact hno ⟨rfl, not_not.mp hrc⟩
      simp [World.withStore, hq, hp]

/-- Claim C12, amended (a classification sticks until the path is removed): once `p` is
recorded in `for_sure_files` (respectively `for_sure_directories`), it is still recorded
in that set after every later sequence of Node Handle calls (marking, `isDir`, content
reads and writes, `create`, `remove`, and the other queries, on any paths) in which no
`remove(p)` succeeds. -/
theorem classification_sticks {σ : Type} (zk : ZooKeeper σ) (fuel : Nat) (p : String)
    (calls : List HandleCall) (w w1 : World σ)
    (hno : NoSuccessfulRemove zk fuel p calls w)
    (hrun : runHandleCalls zk fuel calls w = some w1) :
    (p ∈ w.for_sure_files → p ∈ w1.for_sure_files) ∧
    (p ∈ w.for_sure_directories → p ∈ w1.for_sure_directories) := by
  induction calls generalizing w with
  | nil =>
    simp only [runHandleCalls, Option.some.injEq] at hrun
    subst hrun
    exact ⟨id, id⟩
  | cons c cs ih =>
    simp only [runHandleCalls] at hrun
    simp only [NoSuccessfulRemove] at hno
    cases hc : runHandleCall zk fuel w c with
    | none => simp [hc] at hrun
    | some w2 =>
      simp only [hc] at hrun hno
      have := ih w2 hno.2 hrun
      exact ⟨fun hp => this.1 (runHandleCall_keeps_file zk fuel p w w2 c hp hno.1 hc),
        fun hp => this.2 (runHandleCall_keeps_directory zk fuel p w w2 c hp hno.1 hc)⟩

/-- Witness of C12: `/b`, recorded as a directory, stays recorded through a marking as
file, an `isDir`, a write, a `remove("/b")` that fails because `/b` has a child, a
`remove("/a")` that succeeds, and a read. -/
theorem classification_sticks_witness :
    "/b" ∈ (markAsDirectory "/b" hybridWorld).for_sure_directories ∧
    ∃ w1, runHandleCalls memZk 1
        [.markAsFile "/b", .isDir "/b", .setContent "/b" [1], .remove "/b", .remove "/a",
          .getContent "/b"]
        (markAsDirectory "/b" hybridWorld) = some w1 ∧
      "/b" ∈ w1.for_sure_directories :=
  ⟨by decide, _, rfl,
    (classification_sticks memZk 1 "/b"
      [.markAsFile "/b", .isDir "/b", .setContent "/b" [1], .remove "/b", .remove "/a",
        .getContent "/b"]
      (markAsDirectory "/b" hybridWorld) _
      (And.intro (by decide) (And.intro (by decide) (And.intro (by decide)
        (And.intro (by decide) (And.intro (by decide) (And.intro (by decide) True.intro))))))
      rfl).2 (by decide)⟩

/-- Claim C12 as stated fails when the later sequence holds a successful `remove(p)`:
`/a` is recorded as a file (respectively as a directory), `remove("/a")` succeeds on
the scenario store, and `/a` is then in neither set. -/
theorem classification_lost_by_remove :
    ("/a" ∈ (markAsFile "/a" hybridWorld).for_sure_files ∧
      ∃ w1, runHandleCalls memZk 1 [.remove "/a"] (markAsFile "/a" hybridWorld) = some w1 ∧
        "/a" ∉ w1.for_sure_files) ∧
    ("/a" ∈ (markAsDirectory "/a" hybridWorld).for_sure_directories ∧
      ∃ w1, runHandleCalls memZk 1 [.remove "/a"] (markAsDirectory "/a" hybridWorld) = some w1 ∧
        "/a" ∉ w1.for_sure_directories) :=
  ⟨⟨by decide, _, rfl, by decide⟩, ⟨by decide, _, rfl, by decide⟩⟩

/-! ## Store errors during a read -/

theorem asUnsigned_of_nonneg (i : Int) (h0 : 0 ≤ i) (h1 : i < 2 ^ 32) :
    asUnsigned i = i.toNat := by
  unfold asUnsigned
  omega

theorem asSigned_asUnsigned (i : Int) (h0 : 0 ≤ i) (h1 : i < 2 ^ 31) :
    asSigned (asUnsigned i) = i := by
  rw [asUnsigned_of_nonneg i h0 (by omega)]
  unfold asSigned
  split <;> omega

theorem firstRead_counting {σ : Type} (zk : ZooKeeper σ) (p : String) (w : World (σ × Nat)) :
    (firstRead (counting zk) p w).2.2 = w.store.2 + 1 := rfl

theorem secondRead_counting {σ : Type} (zk : ZooKeeper σ) (p : String) (w : World (σ × Nat)) :
    (secondRead (counting zk) p w).2.2 = w.store.2 + 2 := rfl

/-- Claim C13 (`getContent` does not retry store errors), over a store that counts its
calls: if the bounded read fails, `getContent` throws with that return code and one
call has been made; if the bounded read reports a length above 262144 and the full-size
read fails, `getContent` throws with that return code and two calls have been made.
An activation ends in the self-call exactly when both reads succeed and report
different lengths (`Restarts`); otherwise it ends without it, whatever the fuel. -/
theorem getContent_no_retry {σ : Type} (zk : ZooKeeper σ) (p : String) (fuel : Nat)
    (w : World (σ × Nat)) :
    ((firstRead (counting zk) p w).1.rc ≠ ZOK →
      getContent (counting zk) p (fuel + 1) w =
        .throws (.zooFile ⟨"An error occurred getting the contents of file: " ++ p,
          (firstRead (counting zk) p w).1.rc⟩) (w.withStore (firstRead (counting zk) p w).2) ∧
      (firstRead (counting zk) p w).2.2 = w.store.2 + 1) ∧
    ((firstRead (counting zk) p w).1.rc = ZOK →
      (MAX_FILE_SIZE : Int) < (firstRead (counting zk) p w).1.buffer_len →
      (firstRead (counting zk) p w).1.buffer_len < 2 ^ 31 →
      (secondRead (counting zk) p w).1.rc ≠ ZOK →
      getContent (counting zk) p (fuel + 1) w =
        .throws (.zooFile ⟨"An error occurred getting the contents of file: " ++ p,
          (secondRead (counting zk) p w).1.rc⟩) (w.withStore (secondRead (counting zk) p w).2) ∧
      (secondRead (counting zk) p w).2.2 = w.store.2 + 2) ∧
    (Restarts (counting zk) p w →
      getContent (counting zk) p (fuel + 1) w =
        getContent (counting zk) p fuel (w.withStore (secondRead (counting zk) p w).2)) ∧
    (¬ Restarts (counting zk) p w →
      getContent (counting zk) p (fuel + 1) w = getContent (counting zk) p 1 w ∧
      getContent (counting zk) p 1 w ≠ .outOfFuel) := by
  have hM := MAX_FILE_SIZE_eq
  refine ⟨?_, ?_, ?_, ?_⟩
  · intro h1
    refine ⟨?_, rfl⟩
    rw [getContent_step, if_pos h1]
  · intro h1 hbig hint h2
    refine ⟨?_, rfl⟩
    have hu : asUnsigned (firstRead (counting zk) p w).1.buffer_len > MAX_FILE_SIZE := by
      rw [asUnsigned_of_nonneg _ (by omega) (by omega)]
      omega
    have hs : ¬ asSigned (asUnsigned (firstRead (counting zk) p w).1.buffer_len) < 0 := by
      rw [asSigned_asUnsigned _ (by omega) hint]
      omega
    rw [getContent_step, if_neg (not_not.mpr h1), if_pos hu, if_neg hs, if_pos h2]
  · rintro ⟨h1, hu, hs, h2, hne⟩
    rw [getContent_step, if_neg (not_not.mpr h1), if_pos hu, if_neg hs,
      if_neg (not_not.mpr h2), if_pos hne]
  · intro hno
    have key : ∀ f, getContent (counting zk) p (f + 1) w = getContent (counting zk) p 1 w ∧
        getContent (counting zk) p 1 w ≠ .outOfFuel := by
      intro f
      rw [getContent_step, getContent_step]
      by_cases h1 : (firstRead (counting zk) p w).1.rc = ZOK
      · by_cases hu : asUnsigned (firstRead (counting zk) p w).1.buffer_len > MAX_FILE_SIZE
        · by_cases hs : asSigned (asUnsigned (firstRead (counting zk) p w).1.buffer_len) < 0
          · simp [h1, hu, hs]
          · by_cases h2 : (secondRead (counting zk) p w).1.rc = ZOK
            · have hne : ¬ (asUnsigned (asSigned
                  (asUnsigned (firstRead (counting zk) p w).1.buffer_len)) ≠
                  asUnsigned (secondRead (counting zk) p w).1.buffer_len) :=
                fun hne => hno ⟨h1, hu, hs, h2, hne⟩
              simp only [h1, hu, hs, h2, hne, ne_eq, not_true_eq_false, if_false, if_true,
                true_and]
              simp
            · simp [h1, hu, hs, h2]
        · by_cases hpos : asUnsigned (firstRead (counting zk) p w).1.buffer_len > 0
          · simp only [h1, hu, hpos, ne_eq, not_true_eq_false, if_false, if_true, true_and]
            simp
          · simp [h1, hu, hpos]
      · simp [h1]
    exact key fuel

/-- Witness of C13: on a lost session `getContent` throws after one call; on a double
whose first read reports 262145 bytes and whose second read fails, it throws after two
calls. -/
theorem getContent_no_retry_witness :
    getContent (counting (failingZk (-4))) "/a" 1 (initialWorld ((), 0)) =
      .throws (.zooFile ⟨"An error occurred getting the contents of file: /a", -4⟩)
        (initialWorld ((), 1)) ∧
    getContent (counting (failingAfter 1 (-4) (fun _ => oversized))) "/a" 1
        (initialWorld (0, 0)) =
      .throws (.zooFile ⟨"An error occurred getting the contents of file: /a", -4⟩)
        (initialWorld (2, 2)) :=
  ⟨((getContent_no_retry (failingZk (-4)) "/a" 0 (initialWorld ((), 0))).1 (by decide)).1,
   ((getContent_no_retry (failingAfter 1 (-4) (fun _ => oversized)) "/a" 0
      (initialWorld (0, 0))).2.1 rfl
      (by
        show (MAX_FILE_SIZE : Int) < ((oversized.length : Nat) : Int)
        rw [oversized_length]
        omega)
      (by
        show ((oversized.length : Nat) : Int) < 2 ^ 31
        rw [oversized_length, MAX_FILE_SIZE_eq]
        decide)
      (by decide)).1⟩

/-! ## The watching read -/

/-- Claim C14 (`getContentAndSetWatch` against `getContent`): when the store answers the
bounded read alike with and without the watch flag, and a successful read reports a
length of at most 262144 bytes, `getContentAndSetWatch` returns the byte sequence that
`getContent` returns, or throws the exception that `getContent` throws; it makes the
one read, with the watch flag set. -/
theorem getContentAndSetWatch_refines {σ : Type} (zk : ZooKeeper σ) (p : String)
    (fuel : Nat) (w : World σ)
    (hwatch : (zk.zoo_get w.store p 1 MAX_FILE_SIZE).1 = (firstRead zk p w).1)
    (hlen : (firstRead zk p w).1.rc = ZOK →
      0 ≤ (firstRead zk p w).1.buffer_len ∧
      (firstRead zk p w).1.buffer_len ≤ (MAX_FILE_SIZE : Int)) :
    (getContentAndSetWatch zk p w).forget = (getContent zk p (fuel + 1) w).forget ∧
    (∀ w1, (getContentAndSetWatch zk p w).continues = some w1 →
      w1 = w.withStore (zk.zoo_get w.store p 1 MAX_FILE_SIZE).2) := by
  have hM := MAX_FILE_SIZE_eq
  constructor
  · rw [getContent_step]
    simp only [getContentAndSetWatch, hwatch]
    by_cases h1 : (firstRead zk p w).1.rc = ZOK
    · obtain ⟨h0, hmax⟩ := hlen h1
      have hu : asUnsigned (firstRead zk p w).1.buffer_len =
          (firstRead zk p w).1.buffer_len.toNat :=
        asUnsigned_of_nonneg _ h0 (by omega)
      have hs : asSigned (asUnsigned (firstRead zk p w).1.buffer_len) =
          (firstRead zk p w).1.buffer_len :=
        asSigned_asUnsigned _ h0 (by omega)
      have hnotbig : ¬ (firstRead zk p w).1.buffer_len.toNat > MAX_FILE_SIZE := by omega
      rw [hs, hu]
      by_cases hpos : (firstRead zk p w).1.buffer_len > 0
      · have hpos2 : (firstRead zk p w).1.buffer_len.toNat > 0 := by omega
        simp only [h1, ne_eq, not_true_eq_false, if_false, hpos, if_true, hnotbig, hpos2,
          Result.forget]
      · have hpos2 : ¬ (firstRead zk p w).1.buffer_len.toNat > 0 := by omega
        simp only [h1, ne_eq, not_true_eq_false, if_false, hpos, hnotbig, hpos2,
          Result.forget]
    · simp only [h1, ne_eq, not_false_eq_true, if_true, Result.forget]
  · intro w1 h
    simp only [getContentAndSetWatch] at h
    split_ifs at h
    all_goals first
      | (simp only [Result.continues, Option.some.injEq] at h
         exact h.symm)
      | simp [Result.continues] at h

/-- Witness of C14: both reads of `/b/c` return its three bytes, and on a lost session
both throw the same exception. -/
theorem getContentAndSetWatch_refines_witness :
    (getContentAndSetWatch memZk "/b/c" hybridWorld = .returns [1, 2, 3] hybridWorld ∧
      (getContentAndSetWatch memZk "/b/c" hybridWorld).forget =
        (getContent memZk "/b/c" 1 hybridWorld).forget) ∧
    (getContentAndSetWatch (failingZk (-4)) "/a" (initialWorld ())).forget =
      (getContent (failingZk (-4)) "/a" 1 (initialWorld ())).forget :=
  ⟨⟨rfl, (getContentAndSetWatch_refines memZk "/b/c" 0 hybridWorld rfl
      (fun _ => by decide)).1⟩,
   (getContentAndSetWatch_refines (failingZk (-4)) "/a" 0 (initialWorld ()) rfl
      (fun h => absurd h (by decide))).1⟩

end ZooFile
